import Mathlib

/-!
Shallow embedding of the derivation engine in src/plugins/wmf-netbox.py
(the WMF Homer Netbox plugin).  Python dictionaries are modelled as
association lists or structures with Option fields (a `none` field models
an absent key), and every fallible code path (an uncaught Python exception
such as TypeError, KeyError, AttributeError or ValueError) is modelled by
an Option-valued function returning `none`.  Machine integers are Nat.
-/

set_option autoImplicit false

/-! ### Python-style string helpers (structural recursion, kernel friendly) -/

/-- Characters of `s` before the first occurrence of `c` (python s.split(c)[0]). -/
def headUntil (c : Char) (l : List Char) : List Char := l.takeWhile (fun x => x ≠ c)

/-- Characters of `l` after the first occurrence of `c`, if any. -/
def afterFirst (c : Char) : List Char → Option (List Char)
  | [] => none
  | x :: xs => if x = c then some xs else afterFirst c xs

/-- Python `c in s` for a single character. -/
def strContains (s : String) (c : Char) : Bool := s.data.contains c

/-- Python `s.split('.')[0]`. -/
def stemOf (s : String) : String := String.mk (headUntil '.' s.data)

/-- Python `s.split('.', 1)`, assuming a dot is present: the pair (head, rest). -/
def splitOnce (s : String) : String × String :=
  (stemOf s, String.mk ((afterFirst '.' s.data).getD []))

/-- Python `s.startswith(p)`. -/
def startsW (s p : String) : Bool := p.data.isPrefixOf s.data

/-- Python `s.strip()` (whitespace on both ends). -/
def pyStrip (s : String) : String :=
  String.mk (((s.data.dropWhile Char.isWhitespace).reverse.dropWhile Char.isWhitespace).reverse)

/-- Python `str(ip_interface(s).ip)`: the address part of "a.b.c.d/plen". -/
def ipOf (s : String) : String := String.mk (headUntil '/' s.data)

/-- Python `int(s)` restricted to plain digit strings; `none` models ValueError. -/
def digitsToNat (l : List Char) : Option Nat :=
  if l ≠ [] ∧ l.all Char.isDigit then
    some (l.foldl (fun a c => a * 10 + (c.toNat - 48)) 0)
  else none

/-- Python `int(s)` on a string. -/
def pyInt (s : String) : Option Nat := digitsToNat s.data

/-- Bool test that `p` occurs as a contiguous sublist of `l`. -/
def listInfix {α : Type} [DecidableEq α] (p : List α) : List α → Bool
  | [] => decide (p = [])
  | x :: xs => p.isPrefixOf (x :: xs) || listInfix p xs

/-- Python `sub in s` (substring containment). -/
def pyInStr (needle hay : String) : Bool := listInfix needle.data hay.data

/-! ### Association lists modelling python dicts -/

/-- Python `d.get(k)` / `d[k]` lookup on an insertion-ordered dict. -/
def lookupA {α β : Type} [DecidableEq α] : List (α × β) → α → Option β
  | [], _ => none
  | (a, b) :: r, k => if a = k then some b else lookupA r k

/-- Python `d[k] = v`: overwrite in place, keeping the original position, else append. -/
def setA {α β : Type} [DecidableEq α] : List (α × β) → α → β → List (α × β)
  | [], k, v => [(k, v)]
  | (a, b) :: r, k, v => if a = k then (k, v) :: r else (a, b) :: setA r k v

/-- First-occurrence deduplication; `(dedupAcc [] l).length` is python `len(set(l))`. -/
def dedupAcc {α : Type} [DecidableEq α] (seen : List α) : List α → List α
  | [] => []
  | x :: xs => if x ∈ seen then dedupAcc seen xs else x :: dedupAcc (x :: seen) xs

/-! ### IP addresses

An assigned address record "a.b.c.d/plen" is modelled already parsed:
family (4 or 6), the numeric address, and the prefix length. -/

structure IpAddr where
  fam : Nat
  ip : Nat
  plen : Nat
  deriving DecidableEq

def famBits (f : Nat) : Nat := if f = 4 then 32 else 128

/-- Python `ip_interface(v) in r.network`: `False` on a family mismatch, else the
network (host bits of `r` masked off) must contain the plain address of `v`. -/
def netContains (r v : IpAddr) : Bool :=
  r.fam == v.fam && v.ip / 2 ^ (famBits r.fam - r.plen) == r.ip / 2 ^ (famBits r.fam - r.plen)

/-! ### Netbox inventory records (the snapshot) -/

structure NbDevice where
  name : String
  roleSlug : String
  /-- `virtual_chassis.domain` when the device belongs to a virtual chassis. -/
  vcDomain : Option String

structure Endpoint where
  device : NbDevice
  name : String

structure NbCircuit where
  typeName : String
  providerName : String
  cid : String
  description : String
  /-- `termination_z` (none models a missing object) carrying `upstream_speed`. -/
  termZ : Option (Option Nat)

/-- One cable peer, as exposed by `link_peers` / `link_peers_type`.  A front
port carries its `rear_port` (none models a falsy rear_port); the value held
for a rear port used as `b_int` is that rear port's own `link_peers`. -/
inductive LinkPeer where
  | iface : LinkPeer
  | frontport : Option (List LinkPeer) → LinkPeer
  | rearport : LinkPeer
  | circuitTerm : NbCircuit → LinkPeer

def peersTypeName : LinkPeer → String
  | .iface => "dcim.interface"
  | .frontport _ => "dcim.frontport"
  | .rearport => "dcim.rearport"
  | .circuitTerm _ => "circuits.circuittermination"

/-- `link_peers_type`: none when there are no link peers. -/
def peersType : List LinkPeer → Option String
  | [] => none
  | p :: _ => some (peersTypeName p)

/-- An FHRP group assignment relevant to one interface. -/
structure FhrpGroup where
  groupId : Nat
  ips : List IpAddr

/-- An IP address record of the device (`ipam.ip_addresses.filter(device_id=...)`). -/
structure NbIp where
  assignedName : String
  addr : IpAddr
  roleAnycast : Bool
  deriving DecidableEq

structure NbInterface where
  id : Nat
  name : String
  enabled : Bool
  description : String
  typeVal : String
  lag : Option String
  mtu : Option Nat
  mac : Option String
  vrf : Option String
  mode : Option String
  untaggedVlan : Option (String × Nat)
  taggedVlans : List String
  mgmtOnly : Bool
  countIp : Nat
  countFhrp : Nat
  /-- `cable`, reduced to its label when present. -/
  cable : Option String
  link_peers : List LinkPeer
  /-- `connected_endpoints`: none models null (unresolved path). -/
  connEndpoints : Option (List Endpoint)
  connEndpointsType : Option String

structure TunnelEnd where
  outsideIp : Option String
  devName : String
  intName : String

structure TunnelInfo where
  outsideIp : Option String
  tunName : String
  tunDesc : String
  roleSpoke : Bool
  /-- the tunnel group's `hub_ip` custom field address (spoke case). -/
  hubIp : Option String
  /-- the other termination of the tunnel (non-spoke case). -/
  zEnd : Option TunnelEnd

structure Snapshot where
  interfaces : List NbInterface
  tunnels : List (Nat × TunnelInfo)
  deviceIps : List NbIp
  fhrpAssigns : List (Nat × FhrpGroup)

/-! ### `_get_link_data` and `interface_description` -/

structure TunnelData where
  source : String
  name : String
  description : String
  destination : String
  deriving DecidableEq

/-- The link_data dict built by `_get_link_data`.  `cableLabel` and
`providerName` model keys that are absent until the cable walk adds them. -/
structure LinkData where
  enabled : Bool
  nbIntDesc : Option String
  circuitId : Option String
  circuitDesc : String
  linkType : String
  zDev : String
  zInt : String
  wmfZEnd : Bool
  tunnel : Option TunnelData
  upstreamSpeed : Option Nat
  cableLabel : Option String
  providerName : Option String
  deriving DecidableEq

/-- The initial link_data dict (lines 352-363), with the Netbox description
already recorded when non-empty (lines 371-372). -/
def ldInit (nb : NbInterface) : LinkData :=
  { enabled := true
    nbIntDesc := if nb.description = "" then none else some nb.description
    circuitId := none
    circuitDesc := ""
    linkType := ""
    zDev := ""
    zInt := ""
    wmfZEnd := true
    tunnel := none
    upstreamSpeed := none
    cableLabel := none
    providerName := none }

/-- The link_data returned for a disabled interface (lines 366-368). -/
def ldDisabled : LinkData :=
  { ldInit { id := 0, name := "", enabled := false, description := "", typeVal := "",
             lag := none, mtu := none, mac := none, vrf := none, mode := none,
             untaggedVlan := none, taggedVlans := [], mgmtOnly := false, countIp := 0,
             countFhrp := 0, cable := none, link_peers := [], connEndpoints := none,
             connEndpointsType := none } with enabled := false }

/-- Tunnel short-circuit of `_get_link_data` (lines 374-395); `none` models an
uncaught AttributeError / TypeError on missing related records. -/
def tunnelBranch (snap : Snapshot) (nb : NbInterface) (ld : LinkData) : Option LinkData :=
  match lookupA snap.tunnels nb.id with
  | none => some ld
  | some t =>
    match t.outsideIp with
    | none => none
    | some o =>
      if t.roleSpoke then
        match t.hubIp with
        | none => none
        | some h =>
          some { ld with
                 wmfZEnd := false
                 linkType := "Transit-tun"
                 tunnel := some { source := ipOf o
                                  name := t.tunName
                                  description := t.tunDesc
                                  destination := ipOf h } }
      else
        match t.zEnd with
        | none => none
        | some z =>
          match z.outsideIp with
          | none => none
          | some zo =>
            some { ld with
                   linkType := "Transport-tun"
                   tunnel := some { source := ipOf o
                                    name := t.tunName
                                    description := t.tunDesc
                                    destination := ipOf zo }
                   zDev := z.devName
                   zInt := z.intName }

/-- One step of the parent-interface scan (lines 402-409): remember the last
same-stem interface that has a cable, and inherit the first parent description
when the sub-interface has none of its own. -/
def parentScanStep (childName : String) (st : Option NbInterface × Option String)
    (i : NbInterface) : Option NbInterface × Option String :=
  if strContains childName '.' ∧ stemOf childName = i.name then
    ((if i.cable.isSome then some i else st.1),
     (match st.2 with
      | some d => some d
      | none => if i.description = "" then none else some i.description))
  else st

def parentScan (childName : String) (d0 : Option String) (ints : List NbInterface) :
    Option NbInterface × Option String :=
  ints.foldl (parentScanStep childName) (none, d0)

def coreRoles : List String := ["cr", "asw", "mr", "msw", "pfw", "cloudsw"]

/-- The cable walk of `_get_link_data` (lines 415-463) starting from the a-side
interface `a` (which is known to have a cable). -/
def cableWalk (a : NbInterface) (ld0 : LinkData) : Option LinkData :=
  match a.cable with
  | none => none
  | some lbl =>
    let ld := { ld0 with cableLabel := some lbl }
    let bPeers : List LinkPeer :=
      match a.link_peers with
      | .frontport (some rp) :: _ => rp
      | _ => a.link_peers
    let dcimStep : Option LinkData :=
      if peersType bPeers = some "dcim.interface" ∨ peersType bPeers = some "dcim.frontport"
          ∨ peersType bPeers = some "dcim.rearport" then
        match a.connEndpoints with
        | some (e :: _) =>
          some { ld with
                 zDev := (match e.device.vcDomain with
                          | some d => stemOf d
                          | none => e.device.name)
                 zInt := e.name
                 linkType := if e.device.roleSlug ∈ coreRoles then "Core" else ld.linkType }
        | _ => none
      else some ld
    match dcimStep with
    | none => none
    | some ld2 =>
      if peersType bPeers = some "circuits.circuittermination" then
        match bPeers with
        | .circuitTerm c :: _ =>
          let ld3 := { ld2 with
                       linkType := c.typeName
                       providerName := some c.providerName
                       circuitId := some c.cid
                       circuitDesc := c.description
                       upstreamSpeed := (match c.termZ with
                                         | some tz => tz
                                         | none => ld2.upstreamSpeed) }
          match a.connEndpoints with
          | none => some { ld3 with wmfZEnd := false }
          | some [] => some { ld3 with wmfZEnd := false }
          | some (e :: _) =>
            if a.connEndpointsType = some "circuits.providernetwork" then
              some { ld3 with wmfZEnd := false }
            else
              some { ld3 with zDev := e.device.name, zInt := e.name }
        | _ => none
      else some ld2

/-- `_get_link_data` (lines 332-463); `none` models an uncaught exception. -/
def get_link_data (snap : Snapshot) (nb : NbInterface) : Option LinkData :=
  if nb.enabled = false then some ldDisabled
  else
    let ld := ldInit nb
    if startsW nb.name "gr-" then tunnelBranch snap nb ld
    else
      match nb.cable with
      | some _ => cableWalk nb ld
      | none =>
        match parentScan nb.name ld.nbIntDesc snap.interfaces with
        | (a, d) =>
          let ld2 := { ld with nbIntDesc := d }
          match a with
          | none => some ld2
          | some p => cableWalk p ld2

/-- `interface_description` (lines 287-330).  `none` models a KeyError on the
`cable_label` / `provider` keys when they were never added to the dict. -/
def interface_description (ld : LinkData) : Option String :=
  if ld.enabled = false then some "DISABLED"
  else if ld.nbIntDesc.getD "" ≠ "" then some (ld.nbIntDesc.getD "")
  else
    match ld.tunnel with
    | some t =>
      if ld.zDev ≠ "" then
        some ("Transport-tun: " ++ ld.zDev ++ ":" ++ ld.zInt ++ " " ++ t.description)
      else some t.description
    | none =>
      if ld.circuitId.getD "" ≠ "" then
        let cctDesc := pyStrip (ld.circuitId.getD "" ++ " " ++ ld.circuitDesc)
        match ld.providerName, ld.cableLabel with
        | some prov, some lbl =>
          if ld.wmfZEnd then
            some (ld.linkType ++ ": " ++ ld.zDev ++ ":" ++ ld.zInt ++ " (" ++ prov ++ ", "
                  ++ cctDesc ++ ") \x7b#" ++ lbl ++ "\x7d")
          else
            some (ld.linkType ++ ": " ++ prov ++ " (" ++ cctDesc ++ ") \x7b#" ++ lbl ++ "\x7d")
        | _, _ => none
      else if ld.zDev ≠ "" then
        if ld.linkType ≠ "" then
          match ld.cableLabel with
          | some lbl =>
            some (ld.linkType ++ ": " ++ ld.zDev ++ ":" ++ ld.zInt ++ " \x7b#" ++ lbl ++ "\x7d")
          | none => none
        else if ld.cableLabel.getD "" ≠ "" then
          some (ld.zDev ++ " \x7b#" ++ ld.cableLabel.getD "" ++ "\x7d")
        else some ld.zDev
      else some ""

/-! ### `interface_mtu` (lines 537-549) -/

def interface_mtu_go (name : String) (acc : Option Nat) : List NbInterface → Option Nat
  | [] => acc
  | i :: rest =>
    if i.name = name ∧ i.enabled = true ∧ i.mtu.getD 0 ≠ 0 then i.mtu
    else
      interface_mtu_go name
        (if strContains name '.' ∧ stemOf name = i.name ∧ i.mtu.getD 0 ≠ 0 ∧ i.enabled = true
         then i.mtu else acc) rest

/-- `interface_mtu`: exact enabled match wins immediately, otherwise the last
enabled parent with an MTU, otherwise none. -/
def interface_mtu (ints : List NbInterface) (name : String) : Option Nat :=
  interface_mtu_go name none ints

/-! ### Address assignment (`_get_junos_interfaces`, lines 618-653) -/

/-- The value of one real address in the assigned map: at most one vrrp entry
`{virtual_ip: group}` and at most one anycast ip (later matches overwrite). -/
structure IpEntry where
  vrrp : Option (Nat × Nat)
  anycast : Option Nat
  deriving DecidableEq

def emptyEntry : IpEntry := { vrrp := none, anycast := none }

/-- `_get_interface_ip_addresses(name)` (lines 202-211): the device addresses
assigned to `name`, split per family (a Netbox family value is 4 or 6, so a
non-4 family is grouped as 6); `none` models the KeyError raised when the
name never appears in the grouped dict. -/
def interfaceIps (deviceIps : List NbIp) (name : String) :
    Option (List NbIp × List NbIp) :=
  if deviceIps.any (fun ip => ip.assignedName = name) then
    let mine := deviceIps.filter (fun ip => ip.assignedName = name)
    some (mine.filter (fun ip => ip.addr.fam = 4), mine.filter (fun ip => ¬ ip.addr.fam = 4))
  else none

/-- One step of the real/virtual address collection (lines 624-634). `total` is
`len(int_addresses[address_fam])` for the family being processed. -/
def collectStep (total : Nat)
    (st : List (IpAddr × IpEntry) × List (IpAddr × Option Nat) × Option String)
    (ip : NbIp) :
    List (IpAddr × IpEntry) × List (IpAddr × Option Nat) × Option String :=
  match st with
  | (reals, virts, gw) =>
    if ip.roleAnycast then
      if total > 1 then (reals, setA virts ip.addr none, some "vga")
      else (setA reals ip.addr emptyEntry, virts, some "single")
    else (setA reals ip.addr emptyEntry, virts, gw)

def collectFam (ips : List NbIp)
    (virts : List (IpAddr × Option Nat)) (gw : Option String) :
    List (IpAddr × IpEntry) × List (IpAddr × Option Nat) × Option String :=
  ips.foldl (collectStep ips.length) ([], virts, gw)

/-- FHRP group virtual IPs (lines 637-640), keyed by address with group id value. -/
def fhrpVirts (assigns : List FhrpGroup) (virts : List (IpAddr × Option Nat)) :
    List (IpAddr × Option Nat) :=
  assigns.foldl (fun vs g => g.ips.foldl (fun vs2 ip => setA vs2 ip (some g.groupId)) vs) virts

/-- Attach every matching virtual IP to one real address entry (lines 644-653):
an FHRP member becomes the single vrrp pair, an anycast ip the anycast value,
each later match overwriting the earlier one. -/
def attachVirts (r : IpAddr) (e : IpEntry) (virts : List (IpAddr × Option Nat)) : IpEntry :=
  virts.foldl
    (fun acc vg =>
      if netContains r vg.1 then
        match vg.2 with
        | some gid => { acc with vrrp := some (vg.1.ip, gid) }
        | none => { acc with anycast := some vg.1.ip }
      else acc) e

/-- The whole address-assignment block (lines 618-653) for one interface with
`count_ipaddresses > 0`: returns the per-family assigned maps and the
`anycast_gw` marker; `none` models an uncaught KeyError. -/
def assignAddresses (snap : Snapshot) (nb : NbInterface) :
    Option ((List (IpAddr × IpEntry) × List (IpAddr × IpEntry)) × Option String) :=
  match interfaceIps snap.deviceIps nb.name with
  | none => none
  | some (ip4s, ip6s) =>
    match collectFam ip4s [] none with
    | (r4, virts1, gw1) =>
      match ip6s.foldl (collectStep ip6s.length) ([], virts1, gw1) with
      | (r6, virts2, gw2) =>
        let assigns := ((snap.fhrpAssigns.filter (fun a => a.1 = nb.id)).map (fun a => a.2))
        let virts3 := if nb.countFhrp > 0 then fhrpVirts assigns virts2 else virts2
        some ((r4.map (fun re => (re.1, attachVirts re.1 re.2 virts3)),
               r6.map (fun re => (re.1, attachVirts re.1 re.2 virts3))), gw2)

/-! ### The interface tree (`_get_junos_interfaces`, lines 551-688) -/

/-- One `interface_config` dict as built for a single Netbox interface record
(never nested): the merged link_data plus the per-interface attributes.
`none` fields model keys that are absent from the dict. -/
structure IntConf where
  ld : LinkData
  description : String
  typeVal : String
  lag : Option String
  mtu : Option (Option Nat)
  mac : Option String
  vrf : Option String
  mode : Option String
  vlans : Option (List String)
  nativeVlanId : Option Nat
  ips : Option (List (IpAddr × IpEntry) × List (IpAddr × IpEntry))
  anycastGw : Option String
  deriving DecidableEq

/-- One node of the jri tree: the top-level `enabled` key, the full attribute
set when the real record has been seen (`attrs = none` models the synthesized
placeholder `{'sub': ..., 'enabled': True}`), the `sub` map, and the `mixed`
flag added by LAG post-processing (`false` models an absent key). -/
structure JNode where
  enabled : Bool
  attrs : Option IntConf
  sub : List (String × IntConf)
  mixed : Bool
  deriving DecidableEq

/-- interface_config['vlans'] and ['native_vlan_id'] (lines 593-616).  The
python set is modelled as a first-occurrence deduplicated list. -/
def buildVlans (nb : NbInterface) : Option (List String) × Option Nat :=
  match nb.mode with
  | none => (none, none)
  | some m =>
    let vs1 : List String := if m = "access" ∧ nb.untaggedVlan = none then ["default"] else []
    let vs2 : List String := if m = "tagged" then nb.taggedVlans else []
    match nb.untaggedVlan with
    | some uv =>
      (some (dedupAcc [] (vs1 ++ vs2 ++ [uv.1])),
       if m = "tagged" then some uv.2 else none)
    | none => (some (dedupAcc [] (vs1 ++ vs2)), none)

/-- enabled / link_data / description / type (lines 562-575). -/
def buildBase (snap : Snapshot) (nb : NbInterface) : Option (LinkData × String) := do
  let ld ← get_link_data snap nb
  let d ← interface_description ld
  some (ld, d)

/-- The interface_config stored for a LAG member (lines 577-583): link data,
description and type only, plus the `lag` key. -/
def buildMember (snap : Snapshot) (nb : NbInterface) (lagName : String) : Option IntConf := do
  let bd ← buildBase snap nb
  some { ld := bd.1
         description := bd.2
         typeVal := nb.typeVal
         lag := some lagName
         mtu := none
         mac := none
         vrf := none
         mode := none
         vlans := none
         nativeVlanId := none
         ips := none
         anycastGw := none }

/-- The full interface_config of a non-LAG-member record (lines 562-653). -/
def buildPhys (snap : Snapshot) (nb : NbInterface) : Option IntConf := do
  let bd ← buildBase snap nb
  let ipsGw ← if nb.countIp > 0 then
      (assignAddresses snap nb).map (fun x => (some x.1, x.2))
    else some (none, none)
  let vl := buildVlans nb
  some { ld := bd.1
         description := bd.2
         typeVal := nb.typeVal
         lag := none
         mtu := some (interface_mtu snap.interfaces nb.name)
         mac := (if nb.mac.getD "" = "" then none else nb.mac)
         vrf := nb.vrf
         mode := nb.mode
         vlans := vl.1
         nativeVlanId := vl.2
         ips := ipsGw.1
         anycastGw := ipsGw.2 }

/-- Insertion of a finished interface_config into the jri dict
(lines 655-671): sub-interfaces nest under their parent (synthesizing an
enabled placeholder when needed), physical interfaces merge into an existing
placeholder via dict.update or are appended.  The update is modelled as
replacing the stored attribute set: in the loop an existing entry for a
physical name can only be the synthesized placeholder, whose only keys
(enabled, sub) are exactly the ones preserved here. -/
def insertRecord (jri : List (String × JNode)) (name : String) (cfg : IntConf) :
    List (String × JNode) :=
  if strContains name '.' then
    match splitOnce name with
    | (parent, sub) =>
      match lookupA jri parent with
      | some node => setA jri parent { node with sub := setA node.sub sub cfg }
      | none => jri ++ [(parent, { enabled := true, attrs := none,
                                   sub := [(sub, cfg)], mixed := false })]
  else
    match lookupA jri name with
    | some node => setA jri name { enabled := cfg.ld.enabled, attrs := some cfg,
                                   sub := node.sub, mixed := node.mixed }
    | none => jri ++ [(name, { enabled := cfg.ld.enabled, attrs := some cfg,
                               sub := [], mixed := false })]

/-- `lags_members[lag].append(name)` on a defaultdict(list). -/
def appendMember (lags : List (String × List String)) (lag name : String) :
    List (String × List String) :=
  match lookupA lags lag with
  | some ms => setA lags lag (ms ++ [name])
  | none => lags ++ [(lag, [name])]

/-- Processing of one Netbox interface record by the main loop of
`_get_junos_interfaces` (lines 560-671). -/
def processRecord (snap : Snapshot)
    (st : List (String × JNode) × List (String × List String)) (nb : NbInterface) :
    Option (List (String × JNode) × List (String × List String)) :=
  if nb.name = "fxp0-re0" ∨ nb.name = "fxp0-re1" then some st
  else if startsW nb.name "vcp" then some st
  else
    match nb.lag with
    | some lagName =>
      match buildMember snap nb lagName with
      | none => none
      | some cfg =>
        some (setA st.1 nb.name { enabled := cfg.ld.enabled, attrs := some cfg,
                                  sub := [], mixed := false },
              appendMember st.2 lagName nb.name)
    | none =>
      match buildPhys snap nb with
      | none => none
      | some cfg => some (insertRecord st.1 nb.name cfg, st.2)

/-- Python `name.split('-')[0]`, the physical-speed name prefix of a member. -/
def speedStem (s : String) : String := String.mk (headUntil '-' s.data)

/-- The loop body reading `jri[member]['link_type']` until the first member
with a non-empty link type (lines 682-684); the outer `none` models a
KeyError on a missing member or attribute set. -/
def firstMemberLinkType (jri : List (String × JNode)) :
    List String → Option (Option String)
  | [] => some none
  | m :: rest =>
    match lookupA jri m with
    | none => none
    | some n =>
      match n.attrs with
      | none => none
      | some a =>
        if a.ld.linkType = "" then firstMemberLinkType jri rest
        else some (some a.ld.linkType)

/-- The link-type donation half of the LAG post-processing (lines 681-684):
read `jri[lag]['link_type']` and, when empty, copy the first member's
non-empty link type onto the aggregate. -/
def donationStep (jri1 : List (String × JNode)) (lag : String) (members : List String) :
    Option (List (String × JNode)) :=
  match lookupA jri1 lag with
  | none => none
  | some n =>
    match n.attrs with
    | none => none
    | some a =>
      if a.ld.linkType = "" then
        match firstMemberLinkType jri1 members with
        | none => none
        | some none => some jri1
        | some (some t) =>
          some (setA jri1 lag { n with attrs := some { a with ld := { a.ld with linkType := t } } })
      else some jri1

/-- LAG post-processing for one aggregate (lines 676-684): set the `mixed`
flag when the members' speed stems are not all identical, then donate a
member's link type to an aggregate that has none. -/
def processLag (jri : List (String × JNode)) (lag : String) (members : List String) :
    Option (List (String × JNode)) :=
  let step1 : Option (List (String × JNode)) :=
    if (dedupAcc [] (members.map speedStem)).length > 1 then
      match lookupA jri lag with
      | none => none
      | some n => some (setA jri lag { n with mixed := true })
    else some jri
  match step1 with
  | none => none
  | some jri1 => donationStep jri1 lag members

def processLags (jri : List (String × JNode)) :
    List (String × List String) → Option (List (String × JNode))
  | [] => some jri
  | lm :: rest =>
    match processLag jri lm.1 lm.2 with
    | none => none
    | some jri2 => processLags jri2 rest

/-- `_get_junos_interfaces` (lines 551-688). -/
def get_junos_interfaces (snap : Snapshot) : Option (List (String × JNode)) := do
  let st ← snap.interfaces.foldlM (processRecord snap) ([], [])
  processLags st.1 st.2

/-! ### `_get_qos_interfaces` (lines 465-532) -/

def NO_QOS_INTS : List String := ["irb", "lo", "fxp", "em", "vme"]

def SWITCHES_ROLES : List String := ["asw", "cloudsw"]

def JUNIPER_LEGACY_SW : List String := ["qfx5100-48s-6q", "ex4600-40f", "ex4300-48t"]

/-- The keys of a per-unit classifier dict: python mixes the int key `0` with
string unit names taken from the `sub` map. -/
inductive UnitKey where
  | num : Nat → UnitKey
  | str : String → UnitKey
  deriving DecidableEq

/-- `DSCP_V4_CLASSIFIER` / `DSCP_DUAL_CLASSIFIER` (lines 482-489). -/
inductive Classifier where
  | v4 : Classifier
  | dual : Classifier
  deriving DecidableEq

/-- One value of the `_qos_interfaces` dict; `dscp_classifier` is the
interface-level v4 classifier added by `.update(DSCP_V4_CLASSIFIER)`. -/
structure QosEntry where
  units : List (UnitKey × Classifier)
  description : Option String
  shape_rate : Option Nat
  dscp_classifier : Bool
  deriving DecidableEq

/-- Python `'lag' in int_conf`. -/
def hasLagKey (n : JNode) : Bool :=
  match n.attrs with
  | some a => a.lag.isSome
  | none => false

/-- The skip condition of the QoS loop (line 494). -/
def qosSkip (name : String) (n : JNode) : Bool :=
  NO_QOS_INTS.any (fun p => startsW name p) || hasLagKey n || !n.enabled

/-- The QoS entry built for one non-skipped interface (lines 497-529);
`none` models the KeyError raised at line 527 when a gr- interface carries
no `sub` key. -/
def qosEntryFor (role dtype name : String) (n : JNode) : Option QosEntry :=
  let shape : Option Nat :=
    match n.attrs with
    | some a =>
      match a.ld.upstreamSpeed with
      | some s => if s ≠ 0 then some (s * 98 / 100) else none
      | none => none
    | none => none
  let e0 : QosEntry := { units := []
                         description := n.attrs.map (fun a => a.description)
                         shape_rate := shape
                         dscp_classifier := false }
  let vlansTruthy : Bool :=
    match n.attrs with
    | some a => (match a.vlans with
                 | some vs => !vs.isEmpty
                 | none => false)
    | none => false
  let ipsKey : Bool :=
    match n.attrs with
    | some a => a.ips.isSome
    | none => false
  let coreTransport : Bool :=
    match n.attrs with
    | some a => a.ld.linkType = "Core" || a.ld.linkType = "Transport"
    | none => false
  if SWITCHES_ROLES.contains role then
    if vlansTruthy then
      some { e0 with units := [(UnitKey.num 0,
                                if JUNIPER_LEGACY_SW.contains dtype then Classifier.v4
                                else Classifier.dual)] }
    else if ipsKey || !n.sub.isEmpty then some { e0 with dscp_classifier := true }
    else some e0
  else if pyInStr role "cr" then
    if coreTransport then
      let ks : List UnitKey :=
        if !n.sub.isEmpty then n.sub.map (fun p => UnitKey.str p.1) else [UnitKey.num 0]
      some { e0 with units := ks.foldl (fun u k => setA u k Classifier.dual) [] }
    else if startsW name "gr-" then
      if n.sub.isEmpty then none
      else
        let us := n.sub.foldl
          (fun u p => if p.2.ld.linkType = "Transport-tun"
                      then setA u (UnitKey.str p.1) Classifier.dual else u) []
        some { e0 with units := us }
    else some e0
  else some e0

/-- One iteration of the QoS loop over a jri item. -/
def qosStep (role dtype : String) (acc : List (String × QosEntry)) (p : String × JNode) :
    Option (List (String × QosEntry)) :=
  if qosSkip p.1 p.2 then some acc
  else
    match qosEntryFor role dtype p.1 p.2 with
    | none => none
    | some e => some (setA acc p.1 e)

/-- `_get_qos_interfaces` over the items of the jri dict. -/
def get_qos_interfaces (role dtype : String) (jri : List (String × JNode)) :
    Option (List (String × QosEntry)) :=
  jri.foldlM (qosStep role dtype) []

/-! ### `_get_port_block_speeds` (lines 252-285) -/

/-- The characters after the last occurrence of `c`. -/
def afterLast (c : Char) (l : List Char) : List Char :=
  (l.reverse.takeWhile (fun x => x ≠ c)).reverse

/-- The characters before the first occurrence of the pattern `p`. -/
def beforeInfix {α : Type} [DecidableEq α] (p : List α) : List α → List α
  | [] => []
  | x :: xs => if p.isPrefixOf (x :: xs) then [] else x :: beforeInfix p xs

/-- The loop skip condition (line 265). -/
def pbsSkip (i : NbInterface) : Bool :=
  i.typeVal = "virtual" || i.typeVal = "lag" || i.mgmtOnly

/-- `int(interface.name.split(':')[0].split('/')[-1])`; `none` models ValueError. -/
def pbsPort (i : NbInterface) : Option Nat :=
  digitsToNat (afterLast '/' (headUntil ':' i.name.data))

/-- Speed derivation (lines 273-276); `none` models ValueError. -/
def pbsSpeed (i : NbInterface) : Option Nat :=
  if startsW i.typeVal "1000base" then some 1
  else digitsToNat (beforeInfix "gbase".data i.typeVal.data)

/-- The port-block loop (lines 263-285).  The outer Option models an uncaught
exception; the inner Option distinguishes the explicit `None` return (not
applicable / inconsistent block) from a returned dict. -/
def pbsGo : List NbInterface → List (Nat × Nat) → Option (Option (List (Nat × Nat)))
  | [], acc => some (some acc)
  | i :: rest, acc =>
    if pbsSkip i then pbsGo rest acc
    else
      match pbsPort i with
      | none => none
      | some port =>
        if port ≥ 48 then pbsGo rest acc
        else
          match pbsSpeed i with
          | none => none
          | some speed =>
            let block := port - port % 4
            match lookupA acc block with
            | none => pbsGo rest (acc ++ [(block, speed)])
            | some s => if s = speed then pbsGo rest acc else some none

/-- `_get_port_block_speeds` for a device whose metadata type is `typeMeta`. -/
def get_port_block_speeds (typeMeta : String) (ints : List NbInterface) :
    Option (Option (List (Nat × Nat))) :=
  if startsW typeMeta "qfx5120-48y" = false then some none
  else pbsGo ints []

/-! ### `normalize_bgp_neighbor` (lines 124-148) -/

/-- Python `re.subn(r'\d\d\d\d', '', s)`: delete every (leftmost,
non-overlapping) run of exactly four digits and count the deletions. -/
def stripQuads : List Char → List Char × Nat
  | c1 :: c2 :: c3 :: c4 :: rest =>
    if c1.isDigit ∧ c2.isDigit ∧ c3.isDigit ∧ c4.isDigit then
      match stripQuads rest with
      | (s, n) => (s, n + 1)
    else
      match stripQuads (c2 :: c3 :: c4 :: rest) with
      | (s, n) => (c1 :: s, n)
  | l => (l, 0)

/-- `server_prefix, sub_count = subn(r'\d\d\d\d', '', server.name)` (line 131). -/
def serverStem (name : String) : String × Nat :=
  match stripQuads name.data with
  | (cs, n) => (String.mk cs, n)

/-- `HOSTNAMES_TO_GROUPS` (lines 16-39): hostname stem, group, ipv4_only. -/
def HOSTNAMES_TO_GROUPS : List (String × String × Bool) :=
  [("aux-k8s-ctrl", "k8s_aux", false),
   ("aux-k8s-worker", "k8s_aux", false),
   ("centrallog", "anycast", true),
   ("cephosd", "anycast", false),
   ("dns", "anycast", true),
   ("doh", "anycast", false),
   ("dse-k8s-worker", "k8s_dse", false),
   ("dse-k8s-ctrl", "k8s_dse", false),
   ("durum", "anycast", false),
   ("ganeti", "ganeti", false),
   ("kubemaster", "k8s", false),
   ("kubernetes", "k8s", false),
   ("kubestage", "k8s_stage", false),
   ("kubestagemaster", "k8s_stage", false),
   ("lvs", "pybal", true),
   ("ml-serve", "k8s_mlserve", false),
   ("ml-serve-ctrl", "k8s_mlserve", false),
   ("ml-staging-ctrl", "k8s_mlstaging", false),
   ("ml-staging", "k8s_mlstaging", false),
   ("mw", "k8s", false),
   ("parse", "k8s", false),
   ("wikikube-ctrl", "k8s", false),
   ("wikikube-worker", "k8s", false)]

structure NbServer where
  name : String
  statusVal : String
  cfBgp : Bool
  primaryIp4 : Option String
  primaryIp6 : Option String

/-- The normalized result dict; python returns `{}` for a rejected server,
modelled as `none`. -/
structure BgpNeighbor where
  group : String
  name : String
  ip4 : Option String
  ip6 : Option String
  deriving DecidableEq

/-- `normalize_bgp_neighbor` (lines 124-148): a total function — every
rejection path returns the empty dict after logging a defect. -/
def normalize_bgp_neighbor (server : NbServer) : Option BgpNeighbor :=
  if server.statusVal ≠ "active" then none
  else if server.cfBgp = false then none
  else
    match serverStem server.name with
    | (stem, cnt) =>
      if cnt = 0 then none
      else
        match lookupA HOSTNAMES_TO_GROUPS stem with
        | none => none
        | some gv =>
          some { group := gv.1
                 name := server.name
                 ip4 := server.primaryIp4.map ipOf
                 ip6 := if gv.2 then none else server.primaryIp6.map ipOf }

/-- Modelled from the spec: the claimed peer-group derivation, which "strips a
trailing numeric suffix" from the hostname and looks the remaining prefix up
in the table.  Used only to compare the claim against the code. -/
def claimServerGroup (name : String) : Option String :=
  (lookupA HOSTNAMES_TO_GROUPS
    (String.mk ((name.data.reverse.dropWhile Char.isDigit).reverse))).map (fun gv => gv.1)

/-! ### Concrete fixture snapshots used by witnesses and counterexamples -/

/-- A plain enabled interface record with no relations. -/
def mkIntD (name : String) : NbInterface :=
  { id := 1, name := name, enabled := true, description := "", typeVal := "1000base-t",
    lag := none, mtu := none, mac := none, vrf := none, mode := none,
    untaggedVlan := none, taggedVlans := [], mgmtOnly := false, countIp := 0,
    countFhrp := 0, cable := none, link_peers := [], connEndpoints := none,
    connEndpointsType := none }

def emptySnap : Snapshot := { interfaces := [], tunnels := [], deviceIps := [], fhrpAssigns := [] }

def sw2dev : NbDevice := { name := "sw2", roleSlug := "asw", vcDomain := none }

/-- `ge-0/0/2` cabled directly to core-role `sw2:ge-0/0/5` with cable label C123. -/
def coreInt : NbInterface :=
  { mkIntD "ge-0/0/2" with
    cable := some "C123"
    link_peers := [LinkPeer.iface]
    connEndpoints := some [{ device := sw2dev, name := "ge-0/0/5" }] }

def coreSnap : Snapshot :=
  { interfaces := [coreInt], tunnels := [], deviceIps := [], fhrpAssigns := [] }

/-- An interface cabled into a patch panel rear port whose far side is not
resolved: `link_peers_type` is `dcim.rearport` while `connected_endpoints`
is null. -/
def c1Int : NbInterface :=
  { mkIntD "xe-0/0/7" with
    cable := some ""
    link_peers := [LinkPeer.rearport] }

def c1Snap : Snapshot :=
  { interfaces := [c1Int], tunnels := [], deviceIps := [], fhrpAssigns := [] }

/-- A front port that is not patched through (its rear port has no cable). -/
def c1FpInt : NbInterface :=
  { mkIntD "xe-0/0/8" with
    cable := some "L1"
    link_peers := [LinkPeer.frontport (some [])] }

/-- A remote device that is a virtual-chassis member. -/
def vcMember : NbDevice :=
  { name := "ssw1-member2", roleSlug := "asw", vcDomain := some "ssw1.eqiad.wmnet" }

def c3Circuit : NbCircuit :=
  { typeName := "Transport", providerName := "Lumen", cid := "C-777", description := "wave",
    termZ := some (some 5000000) }

/-- An interface cabled to a two-termination circuit whose remote endpoint is
a virtual-chassis member. -/
def c3Int : NbInterface :=
  { mkIntD "et-0/0/54" with
    cable := some "K9"
    link_peers := [LinkPeer.circuitTerm c3Circuit]
    connEndpoints := some [{ device := vcMember, name := "et-1/0/54" }]
    connEndpointsType := some "dcim.interface" }

/-- The same circuit with no resolved far endpoint (one known termination). -/
def c3ProvInt : NbInterface :=
  { mkIntD "et-0/0/55" with
    cable := some "K10"
    link_peers := [LinkPeer.circuitTerm c3Circuit] }

def c3Snap : Snapshot :=
  { interfaces := [c3Int, c3ProvInt], tunnels := [], deviceIps := [], fhrpAssigns := [] }

/-- An interface carrying two nested real networks (10.0.0.1/24 and
10.0.0.2/16) and one anycast address 10.0.0.254/32. -/
def c4Int : NbInterface := { mkIntD "vlan100" with id := 9, countIp := 3 }

def c4Snap : Snapshot :=
  { interfaces := [c4Int]
    tunnels := []
    deviceIps :=
      [ { assignedName := "vlan100", addr := ⟨4, 167772161, 24⟩, roleAnycast := false },
        { assignedName := "vlan100", addr := ⟨4, 167772162, 16⟩, roleAnycast := false },
        { assignedName := "vlan100", addr := ⟨4, 167772414, 32⟩, roleAnycast := true } ]
    fhrpAssigns := [] }

/-- The spec example: one real 10.0.0.1/24, FHRP group 5 with member addresses
10.0.0.254/32 (same subnet) and 10.65536.. (10.1.0.254/32, different subnet). -/
def c4vInt : NbInterface := { mkIntD "vlan200" with id := 10, countIp := 1, countFhrp := 1 }

def c4vSnap : Snapshot :=
  { interfaces := [c4vInt]
    tunnels := []
    deviceIps := [ { assignedName := "vlan200", addr := ⟨4, 167772161, 24⟩, roleAnycast := false } ]
    fhrpAssigns := [ (10, { groupId := 5, ips := [⟨4, 167772414, 32⟩, ⟨4, 167837950, 32⟩] }) ] }

/-- An interface_config fixture with a given link type. -/
def mkConf (lt : String) : IntConf :=
  { ld := { ldInit (mkIntD "f") with linkType := lt }
    description := ""
    typeVal := "10gbase-x-sfpp"
    lag := none
    mtu := none
    mac := none
    vrf := none
    mode := none
    vlans := none
    nativeVlanId := none
    ips := none
    anycastGw := none }

/-- A jri node fixture holding a given interface_config. -/
def mkNode (c : IntConf) : JNode := { enabled := true, attrs := some c, sub := [], mixed := false }

/-- A jri fixture: LAG ae1 without a link type, two 10G members (one with link
type Core) and one 25G member. -/
def c5Jri : List (String × JNode) :=
  [("ae1", mkNode (mkConf "")),
   ("xe-0/0/1", mkNode (mkConf "Core")),
   ("xe-0/0/2", mkNode (mkConf "")),
   ("et-0/0/3", mkNode (mkConf ""))]

def c5Members : List String := ["xe-0/0/1", "xe-0/0/2", "et-0/0/3"]

/-- Parent record and sub-interface record for the order-independence claim. -/
def c6Parent : NbInterface := { mkIntD "xe-0/0/5" with mtu := some 9192 }

def c6Sub : NbInterface := mkIntD "xe-0/0/5.100"

def c6Snap : Snapshot :=
  { interfaces := [c6Parent, c6Sub], tunnels := [], deviceIps := [], fhrpAssigns := [] }

def c7Server : NbServer :=
  { name := "randomhost42", statusVal := "active", cfBgp := true,
    primaryIp4 := some "10.3.0.7/32", primaryIp6 := some "2620:0:861:101:10:3:0:7/64" }

def c7Lvs : NbServer :=
  { name := "lvs1001", statusVal := "active", cfBgp := true,
    primaryIp4 := some "10.2.1.1/32", primaryIp6 := some "2620:0:861:1:10:2:1:1/64" }

def c7Dns : NbServer :=
  { name := "dns123", statusVal := "active", cfBgp := true,
    primaryIp4 := some "10.3.0.5/32", primaryIp6 := none }

/-- Two ports of the same 4-port block with conflicting speeds. -/
def c8IntA : NbInterface := { mkIntD "xe-0/0/0" with typeVal := "10gbase-x-sfpp" }

def c8IntB : NbInterface := { mkIntD "xe-0/0/2" with typeVal := "25gbase-x-sfp28" }

/-- A QoS jri fixture node with a given link type and upstream speed. -/
def c9Node (e : Bool) (lt : String) (us : Option Nat) : JNode :=
  { enabled := e
    attrs := some { mkConf lt with ld := { ldInit (mkIntD "f") with linkType := lt, upstreamSpeed := us } }
    sub := []
    mixed := false }

def c9Jri : List (String × JNode) :=
  [("irb.100", c9Node true "" none),
   ("xe-1/1/1", c9Node true "Core" (some 1000000)),
   ("lo0", c9Node true "" none),
   ("xe-2/2/2", c9Node false "" none)]

def c10Parent : NbInterface := { mkIntD "ae1" with mtu := some 9000 }

def c10Sub : NbInterface := { mkIntD "ae1.100" with mtu := some 1500 }

/-! ### Helper lemmas -/

theorem lookupA_setA_self {α β : Type} [DecidableEq α] (l : List (α × β)) (k : α) (v : β) :
    lookupA (setA l k v) k = some v := by
  induction l with
  | nil => simp [setA, lookupA]
  | cons p r ih =>
    by_cases h : p.1 = k
    · simp [setA, lookupA, h]
    · simp [setA, lookupA, h, ih]

theorem lookupA_setA_ne {α β : Type} [DecidableEq α] (l : List (α × β)) (k k2 : α) (v : β)
    (h : k2 ≠ k) : lookupA (setA l k v) k2 = lookupA l k2 := by
  have hk : k ≠ k2 := fun hh => h hh.symm
  induction l with
  | nil => simp [setA, lookupA, hk]
  | cons p r ih =>
    by_cases hp : p.1 = k
    · subst hp
      simp [setA, lookupA, hk]
    · simp [setA, lookupA, hp, ih]

theorem lookupA_append_of_none {α β : Type} [DecidableEq α] (l m : List (α × β)) (k : α)
    (h : lookupA l k = none) : lookupA (l ++ m) k = lookupA m k := by
  induction l with
  | nil => simp
  | cons p r ih =>
    by_cases hp : p.1 = k
    · simp [lookupA, hp] at h
    · simp [lookupA, hp] at h ⊢
      exact ih h

theorem lookupA_append_of_some {α β : Type} [DecidableEq α] (l m : List (α × β)) (k : α) (v : β)
    (h : lookupA l k = some v) : lookupA (l ++ m) k = some v := by
  induction l with
  | nil => simp [lookupA] at h
  | cons p r ih =>
    by_cases hp : p.1 = k
    · simp [lookupA, hp] at h ⊢
      exact h
    · simp [lookupA, hp] at h ⊢
      exact ih h

theorem parentScan_noDot (childName : String) (d0 : Option String) (ints : List NbInterface)
    (h : strContains childName '.' = false) : parentScan childName d0 ints = (none, d0) := by
  induction ints with
  | nil => rfl
  | cons i rest ih =>
    have hstep : parentScanStep childName (none, d0) i = (none, d0) := by
      simp [parentScanStep, h]
    simpa [parentScan, List.foldl, hstep] using ih

theorem desc_simple_isSome (ld : LinkData) (ht : ld.tunnel = none) (hc : ld.circuitId = none)
    (hz : ld.zDev = "") : (interface_description ld).isSome = true := by
  by_cases he : ld.enabled = false
  · simp [interface_description, he]
  · by_cases hd : ld.nbIntDesc.getD "" = ""
    · simp [interface_description, he, hd, ht, hc, hz]
    · simp [interface_description, he, hd]

/-! ### Claim theorems -/

/-- Claim C1, counterexample: the derivation is not exception-free for every
interface record.  For an interface whose cable's peer is a patch panel rear
port (`link_peers_type = 'dcim.rearport'`) while `connected_endpoints` is
unresolved (null), line 435 evaluates `a_int.connected_endpoints[0]` and
raises a TypeError, modelled here as `none`. -/
theorem claim_C1_cex :
    ((get_link_data c1Snap c1Int).bind interface_description) = none := by decide

/-- Claim C1 (amended): link-data derivation followed by description
resolution returns a value (and the empty-ish fallback) for a disabled
interface, an interface with no cable and no parent stem, a cable with no
link peers (unterminated), and a front port that is not patched through; but
totality does not extend to every malformed record (see the counterexample,
where a dcim-typed peer with an unresolved connected endpoint raises). -/
theorem claim_C1 (snap : Snapshot) (nb : NbInterface) :
    (nb.enabled = false → ((get_link_data snap nb).bind interface_description) = some "DISABLED")
    ∧ (startsW nb.name "gr-" = false → nb.cable = none → strContains nb.name '.' = false →
        ((get_link_data snap nb).bind interface_description).isSome = true)
    ∧ (∀ lbl : String, startsW nb.name "gr-" = false → nb.cable = some lbl →
        nb.link_peers = [] →
        ((get_link_data snap nb).bind interface_description).isSome = true)
    ∧ (∀ (lbl : String) (rest : List LinkPeer), startsW nb.name "gr-" = false →
        nb.cable = some lbl → nb.link_peers = LinkPeer.frontport (some []) :: rest →
        ((get_link_data snap nb).bind interface_description).isSome = true) := by
  refine ⟨?_, ?_, ?_, ?_⟩
  · intro he
    simp [get_link_data, he]
    decide
  · intro hgr hcab hdot
    by_cases he : nb.enabled = false
    · simp [get_link_data, he]
      decide
    · have hps := parentScan_noDot nb.name (ldInit nb).nbIntDesc snap.interfaces hdot
      simp [get_link_data, he, hgr, hcab, hps]
      exact desc_simple_isSome _ rfl rfl rfl
  · intro lbl hgr hcab hlp
    by_cases he : nb.enabled = false
    · simp [get_link_data, he]
      decide
    · simp [get_link_data, he, hgr, hcab, cableWalk, hlp, peersType]
      exact desc_simple_isSome _ rfl rfl rfl
  · intro lbl rest hgr hcab hlp
    by_cases he : nb.enabled = false
    · simp [get_link_data, he]
      decide
    · simp [get_link_data, he, hgr, hcab, cableWalk, hlp, peersType]
      exact desc_simple_isSome _ rfl rfl rfl

theorem claim_C1_witness :
    ((get_link_data emptySnap (mkIntD "ge-0/0/9")).bind interface_description).isSome = true
    ∧ ((get_link_data c1Snap c1FpInt).bind interface_description).isSome = true := by
  constructor
  · exact (claim_C1 emptySnap (mkIntD "ge-0/0/9")).2.1 (by decide) rfl (by decide)
  · exact (claim_C1 c1Snap c1FpInt).2.2.2 "L1" [] (by decide) rfl rfl

/-- Claim C2: `interface_description` resolves with precedence
disabled > override > tunnel > circuit > direct-link > empty: a disabled
interface yields exactly "DISABLED"; otherwise a present Netbox override is
returned verbatim; otherwise the tunnel, circuit and direct-link formats
apply in that order; with no link at all the result is the empty string; and
an enabled interface cabled directly to a core-role device with cable label
C123 yields "Core: sw2:ge-0/0/5 {#C123}". -/
theorem claim_C2 (ld : LinkData) :
    (ld.enabled = false → interface_description ld = some "DISABLED")
    ∧ (∀ s : String, ld.enabled = true → ld.nbIntDesc = some s → s ≠ "" →
        interface_description ld = some s)
    ∧ (∀ t : TunnelData, ld.enabled = true → ld.nbIntDesc = none → ld.tunnel = some t →
        interface_description ld = some (if ld.zDev ≠ "" then
          "Transport-tun: " ++ ld.zDev ++ ":" ++ ld.zInt ++ " " ++ t.description
          else t.description))
    ∧ (∀ cid prov lbl : String, ld.enabled = true → ld.nbIntDesc = none → ld.tunnel = none →
        ld.circuitId = some cid → cid ≠ "" → ld.providerName = some prov →
        ld.cableLabel = some lbl →
        interface_description ld = some (if ld.wmfZEnd then
          ld.linkType ++ ": " ++ ld.zDev ++ ":" ++ ld.zInt ++ " (" ++ prov ++ ", "
            ++ pyStrip (cid ++ " " ++ ld.circuitDesc) ++ ") \x7b#" ++ lbl ++ "\x7d"
          else ld.linkType ++ ": " ++ prov ++ " (" ++ pyStrip (cid ++ " " ++ ld.circuitDesc)
            ++ ") \x7b#" ++ lbl ++ "\x7d"))
    ∧ (∀ lbl : String, ld.enabled = true → ld.nbIntDesc = none → ld.tunnel = none →
        ld.circuitId = none → ld.zDev ≠ "" → ld.linkType ≠ "" → ld.cableLabel = some lbl →
        interface_description ld =
          some (ld.linkType ++ ": " ++ ld.zDev ++ ":" ++ ld.zInt ++ " \x7b#" ++ lbl ++ "\x7d"))
    ∧ (ld.enabled = true → ld.nbIntDesc = none → ld.tunnel = none → ld.circuitId = none →
        ld.zDev = "" → interface_description ld = some "")
    ∧ ((get_link_data coreSnap coreInt).bind interface_description
        = some ("Core: sw2:ge-0/0/5 \x7b#C123\x7d")) := by
  refine ⟨?_, ?_, ?_, ?_, ?_, ?_, by decide⟩
  · intro he
    simp [interface_description, he]
  · intro s he hd hs
    simp [interface_description, he, hd, hs]
  · intro t he hd ht
    simp [interface_description, he, hd, ht]
    split <;> rfl
  · intro cid prov lbl he hd ht hc hcne hp hl
    simp [interface_description, he, hd, ht, hc, hcne, hp, hl]
    split <;> rfl
  · intro lbl he hd ht hc hz hlt hl
    simp [interface_description, he, hd, ht, hc, hz, hlt, hl]
  · intro he hd ht hc hz
    simp [interface_description, he, hd, ht, hc, hz]

theorem claim_C2_witness :
    interface_description ldDisabled = some "DISABLED"
    ∧ interface_description { ldInit (mkIntD "x") with nbIntDesc := some "ov" } = some "ov"
    ∧ interface_description (ldInit (mkIntD "x")) = some "" := by
  refine ⟨(claim_C2 ldDisabled).1 (by decide), ?_, ?_⟩
  · exact (claim_C2 _).2.1 "ov" (by decide) rfl (by decide)
  · exact (claim_C2 _).2.2.2.2.2.1 (by decide) (by decide) (by decide) (by decide) (by decide)

/-- Claim C3, counterexample: when the far termination is a circuit
termination and the remote endpoint is resolved, `_get_link_data` (line 460)
stores the remote device's own name even when that device is a
virtual-chassis member — the chassis's elected identity (first label of the
domain, here "ssw1") is not used.  The claim is false on this input. -/
theorem claim_C3_cex :
    ((get_link_data c3Snap c3Int).map (fun ld => ld.zDev)) = some "ssw1-member2"
    ∧ stemOf "ssw1.eqiad.wmnet" = "ssw1"
    ∧ ("ssw1-member2" : String) ≠ "ssw1" := by decide

/-- Claim C3 (amended): when the resolved far termination is a circuit
termination, an unresolved or empty connected endpoint (one known
termination) or a provider-network endpoint marks the link as not WMF-managed
and the description names only the provider; otherwise the remote device and
interface are resolved using the device's own name — no virtual-chassis
substitution happens in the circuit branch (it applies only to direct dcim
links). -/
theorem claim_C3 (snap : Snapshot) (nb : NbInterface) (c : NbCircuit) (lbl : String)
    (rest : List LinkPeer)
    (hen : nb.enabled = true) (hgr : startsW nb.name "gr-" = false)
    (hcab : nb.cable = some lbl) (hlp : nb.link_peers = LinkPeer.circuitTerm c :: rest)
    (hdesc : nb.description = "") (hcid : c.cid ≠ "") :
    ((nb.connEndpoints = none ∨ nb.connEndpoints = some []
        ∨ nb.connEndpointsType = some "circuits.providernetwork") →
      ∃ ld, get_link_data snap nb = some ld ∧ ld.wmfZEnd = false ∧ ld.zDev = ""
        ∧ interface_description ld = some (c.typeName ++ ": " ++ c.providerName ++ " ("
            ++ pyStrip (c.cid ++ " " ++ c.description) ++ ") \x7b#" ++ lbl ++ "\x7d"))
    ∧ (∀ (e : Endpoint) (es : List Endpoint), nb.connEndpoints = some (e :: es) →
        nb.connEndpointsType ≠ some "circuits.providernetwork" →
        ∃ ld, get_link_data snap nb = some ld ∧ ld.wmfZEnd = true
          ∧ ld.zDev = e.device.name ∧ ld.zInt = e.name) := by
  constructor
  · intro hce
    rcases hce with hce | hce | hce
    · simp [get_link_data, hen, hgr, hcab, cableWalk, hlp, peersType, peersTypeName, hce]
      simp [interface_description, ldInit, hdesc, hcid]
    · simp [get_link_data, hen, hgr, hcab, cableWalk, hlp, peersType, peersTypeName, hce]
      simp [interface_description, ldInit, hdesc, hcid]
    · cases hends : nb.connEndpoints with
      | none =>
        simp [get_link_data, hen, hgr, hcab, cableWalk, hlp, peersType, peersTypeName, hends]
        simp [interface_description, ldInit, hdesc, hcid]
      | some es =>
        cases es with
        | nil =>
          simp [get_link_data, hen, hgr, hcab, cableWalk, hlp, peersType, peersTypeName, hends]
          simp [interface_description, ldInit, hdesc, hcid]
        | cons e es2 =>
          simp [get_link_data, hen, hgr, hcab, cableWalk, hlp, peersType, peersTypeName,
                hends, hce]
          simp [interface_description, ldInit, hdesc, hcid]
  · intro e es hends hpn
    simp [get_link_data, hen, hgr, hcab, cableWalk, hlp, peersType, peersTypeName, hends, hpn]
    rfl

theorem claim_C3_witness :
    (∃ ld, get_link_data c3Snap c3ProvInt = some ld ∧ ld.wmfZEnd = false ∧ ld.zDev = ""
       ∧ interface_description ld = some "Transport: Lumen (C-777 wave) \x7b#K10\x7d")
    ∧ (∃ ld, get_link_data c3Snap c3Int = some ld ∧ ld.wmfZEnd = true
       ∧ ld.zDev = "ssw1-member2" ∧ ld.zInt = "et-1/0/54") := by
  constructor
  · obtain ⟨ld, h1, h2, h3, h4⟩ :=
      (claim_C3 c3Snap c3ProvInt c3Circuit "K10" [] rfl (by decide) rfl rfl rfl
        (by decide)).1 (Or.inl rfl)
    exact ⟨ld, h1, h2, h3, h4.trans (by decide)⟩
  · exact (claim_C3 c3Snap c3Int c3Circuit "K9" [] rfl (by decide) rfl rfl rfl
      (by decide)).2 { device := vcMember, name := "et-1/0/54" } [] rfl (by decide)

theorem attachVirts_cons (r : IpAddr) (e : IpEntry) (v : IpAddr × Option Nat)
    (rest : List (IpAddr × Option Nat)) :
    attachVirts r e (v :: rest) =
      attachVirts r
        (if netContains r v.1 then
          (match v.2 with
           | some gid => { e with vrrp := some (v.1.ip, gid) }
           | none => { e with anycast := some v.1.ip })
         else e) rest := rfl

theorem attachVirts_anycast_mono (r : IpAddr) (e : IpEntry)
    (virts : List (IpAddr × Option Nat)) (h : e.anycast.isSome = true) :
    (attachVirts r e virts).anycast.isSome = true := by
  induction virts generalizing e with
  | nil => exact h
  | cons v rest ih =>
    rw [attachVirts_cons]
    by_cases hc : netContains r v.1
    · cases hv : v.2 with
      | none => simp [hc, hv]; exact ih _ (by simp)
      | some g => simp [hc, hv]; exact ih _ (by simpa using h)
    · simp [hc]
      exact ih _ h

theorem attachVirts_vrrp_mono (r : IpAddr) (e : IpEntry)
    (virts : List (IpAddr × Option Nat)) (h : e.vrrp.isSome = true) :
    (attachVirts r e virts).vrrp.isSome = true := by
  induction virts generalizing e with
  | nil => exact h
  | cons v rest ih =>
    rw [attachVirts_cons]
    by_cases hc : netContains r v.1
    · cases hv : v.2 with
      | none => simp [hc, hv]; exact ih _ (by simpa using h)
      | some g => simp [hc, hv]; exact ih _ (by simp)
    · simp [hc]
      exact ih _ h

/-- Claim C4, counterexample: the attachment loop (lines 644-653) attaches a
virtual address to EVERY real address whose network contains it, not to
exactly the one whose network is the smallest enclosing supernet.  Here the
anycast 10.0.0.254 lands under both 10.0.0.1/24 and 10.0.0.2/16, although
10.0.0.1/24 (which also contains it) is the smaller enclosing supernet, so
the /16 entry should have carried nothing under the claim. -/
theorem claim_C4_cex :
    (assignAddresses c4Snap c4Int).map (fun r => r.1.1.map (fun e => (e.1, e.2.anycast)))
      = some [(⟨4, 167772161, 24⟩, some 167772414), (⟨4, 167772162, 16⟩, some 167772414)]
    ∧ netContains ⟨4, 167772161, 24⟩ ⟨4, 167772414, 32⟩ = true := by decide

/-- Claim C4 (amended): a virtual address is attached, per address family by
subnet membership, to EVERY real address whose network contains it (FHRP
members as the single vrrp pair, anycast as the anycast ip, later matches
overwriting earlier ones); a virtual address contained in no real address's
network is attached to none; and on the spec's example the FHRP group-5
member 10.0.0.254/32 lands under the real 10.0.0.1/24 while the
different-subnet 10.1.0.254/32 is never attached to it. -/
theorem claim_C4 (r : IpAddr) (e : IpEntry) (virts : List (IpAddr × Option Nat)) :
    ((∀ v ∈ virts, netContains r v.1 = false) → attachVirts r e virts = e)
    ∧ (∀ v ∈ virts, netContains r v.1 = true → v.2 = none →
        (attachVirts r e virts).anycast.isSome = true)
    ∧ (∀ (v : IpAddr) (g : Nat), (v, some g) ∈ virts → netContains r v = true →
        (attachVirts r e virts).vrrp.isSome = true)
    ∧ ((assignAddresses c4vSnap c4vInt).map (fun x => x.1.1)
        = some [(⟨4, 167772161, 24⟩, { vrrp := some (167772414, 5), anycast := none })]) := by
  refine ⟨?_, ?_, ?_, by decide⟩
  · intro h
    induction virts generalizing e with
    | nil => rfl
    | cons v rest ih =>
      rw [attachVirts_cons]
      have hv := h v (by simp)
      simp [hv]
      exact ih _ (fun w hw => h w (by simp [hw]))
  · intro v hv hc hg
    induction virts generalizing e with
    | nil => simp at hv
    | cons v0 rest ih =>
      rw [attachVirts_cons]
      rcases List.mem_cons.mp hv with hv0 | hv0
      · subst hv0
        simp [hc, hg]
        exact attachVirts_anycast_mono _ _ _ (by simp)
      · exact ih _ hv0
  · intro v g hv hc
    induction virts generalizing e with
    | nil => simp at hv
    | cons v0 rest ih =>
      rw [attachVirts_cons]
      rcases List.mem_cons.mp hv with hv0 | hv0
      · rw [← hv0]
        simp [hc]
        exact attachVirts_vrrp_mono _ _ _ (by simp)
      · exact ih _ hv0

theorem claim_C4_witness :
    attachVirts ⟨4, 167772161, 24⟩ emptyEntry [(⟨4, 167837950, 32⟩, none)] = emptyEntry
    ∧ (attachVirts ⟨4, 167772161, 24⟩ emptyEntry
        [(⟨4, 167772414, 32⟩, none)]).anycast.isSome = true
    ∧ (attachVirts ⟨4, 167772161, 24⟩ emptyEntry
        [(⟨4, 167772414, 32⟩, some 5)]).vrrp.isSome = true := by
  refine ⟨?_, ?_, ?_⟩
  · exact (claim_C4 _ _ _).1 (by decide)
  · exact (claim_C4 _ _ _).2.1 (⟨4, 167772414, 32⟩, none) (by decide) (by decide) rfl
  · exact (claim_C4 _ _ _).2.2.1 ⟨4, 167772414, 32⟩ 5 (by decide) (by decide)

theorem dedupAcc_eq_nil {α : Type} [DecidableEq α] (seen : List α) (l : List α) :
    dedupAcc seen l = [] ↔ ∀ x ∈ l, x ∈ seen := by
  induction l generalizing seen with
  | nil => simp [dedupAcc]
  | cons x xs ih =>
    simp only [dedupAcc]
    by_cases hx : x ∈ seen
    · rw [if_pos hx, ih]
      constructor
      · intro h y hy
        rcases List.mem_cons.mp hy with h1 | h1
        · exact h1 ▸ hx
        · exact h y h1
      · intro h y hy
        exact h y (List.mem_cons_of_mem _ hy)
    · rw [if_neg hx]
      constructor
      · intro h
        simp at h
      · intro h
        exact absurd (h x (by simp)) hx

theorem dedup_le_one_iff {α : Type} [DecidableEq α] (l : List α) :
    (dedupAcc [] l).length ≤ 1 ↔ ∀ x ∈ l, ∀ y ∈ l, x = y := by
  cases l with
  | nil => simp [dedupAcc]
  | cons x xs =>
    have hx : x ∉ ([] : List α) := by simp
    have h1 : dedupAcc ([] : List α) (x :: xs) = x :: dedupAcc [x] xs := by
      simp [dedupAcc]
    rw [h1]
    have h2 : (x :: dedupAcc [x] xs).length ≤ 1 ↔ dedupAcc [x] xs = [] := by
      simp [List.length_eq_zero]
    rw [h2, dedupAcc_eq_nil]
    constructor
    · intro h a ha b hb
      have hval : ∀ c ∈ x :: xs, c = x := by
        intro c hc
        rcases List.mem_cons.mp hc with h1 | h1
        · exact h1
        · simpa using h c h1
      rw [hval a ha, hval b hb]
    · intro h y hy
      simpa using h y (List.mem_cons_of_mem _ hy) x (by simp)

theorem pairs_map_speedStem (members : List String) :
    (∀ u ∈ members.map speedStem, ∀ v ∈ members.map speedStem, u = v)
      ↔ (∀ x ∈ members, ∀ y ∈ members, speedStem x = speedStem y) := by
  constructor
  · intro h x hx y hy
    exact h _ (List.mem_map_of_mem _ hx) _ (List.mem_map_of_mem _ hy)
  · intro h u hu v hv
    obtain ⟨x, hx, rfl⟩ := List.mem_map.mp hu
    obtain ⟨y, hy, rfl⟩ := List.mem_map.mp hv
    exact h x hx y hy

theorem fmlt_none_spec (jri : List (String × JNode)) (members : List String)
    (h : firstMemberLinkType jri members = some none) :
    ∀ m ∈ members, ∀ nm, lookupA jri m = some nm → ∀ am, nm.attrs = some am →
      am.ld.linkType = "" := by
  induction members with
  | nil =>
    intro m hm
    simp at hm
  | cons m0 rest ih =>
    intro m hm nm hnm am ham
    cases h0 : lookupA jri m0 with
    | none =>
      simp only [firstMemberLinkType, h0] at h
      exact Option.noConfusion h
    | some n0 =>
      cases ha0 : n0.attrs with
      | none =>
        simp only [firstMemberLinkType, h0, ha0] at h
        exact Option.noConfusion h
      | some a0 =>
        simp only [firstMemberLinkType, h0, ha0] at h
        by_cases hlt : a0.ld.linkType = ""
        · rw [if_pos hlt] at h
          rcases List.mem_cons.mp hm with he | he
          · subst he
            rw [h0] at hnm
            injection hnm with hnm
            subst hnm
            rw [ha0] at ham
            injection ham with ham
            subst ham
            exact hlt
          · exact ih h m he nm hnm am ham
        · rw [if_neg hlt] at h
          simp at h

theorem fmlt_some_spec (jri : List (String × JNode)) (members : List String) (t : String)
    (h : firstMemberLinkType jri members = some (some t)) :
    t ≠ "" ∧ ∃ m ∈ members, ∃ nm am, lookupA jri m = some nm ∧ nm.attrs = some am
      ∧ am.ld.linkType = t := by
  induction members with
  | nil => simp [firstMemberLinkType] at h
  | cons m0 rest ih =>
    cases h0 : lookupA jri m0 with
    | none =>
      simp only [firstMemberLinkType, h0] at h
      exact Option.noConfusion h
    | some n0 =>
      cases ha0 : n0.attrs with
      | none =>
        simp only [firstMemberLinkType, h0, ha0] at h
        exact Option.noConfusion h
      | some a0 =>
        simp only [firstMemberLinkType, h0, ha0] at h
        by_cases hlt : a0.ld.linkType = ""
        · rw [if_pos hlt] at h
          obtain ⟨ht, m, hm, nm, am, h1, h2, h3⟩ := ih h
          exact ⟨ht, m, List.mem_cons_of_mem _ hm, nm, am, h1, h2, h3⟩
        · rw [if_neg hlt] at h
          injection h with h
          injection h with h
          subst h
          exact ⟨hlt, m0, by simp, n0, a0, h0, ha0, rfl⟩

theorem processLag_eq_mixed (jri : List (String × JNode)) (lag : String)
    (members : List String) (n : JNode)
    (hmc : (dedupAcc [] (members.map speedStem)).length > 1)
    (hl : lookupA jri lag = some n) :
    processLag jri lag members = donationStep (setA jri lag { n with mixed := true }) lag members := by
  simp [processLag, hmc, hl]

theorem processLag_eq_nomix (jri : List (String × JNode)) (lag : String)
    (members : List String)
    (hmc : ¬ (dedupAcc [] (members.map speedStem)).length > 1) :
    processLag jri lag members = donationStep jri lag members := by
  simp [processLag, hmc]

theorem donationStep_spec (jri1 jri2 : List (String × JNode)) (lag : String)
    (members : List String) (n1 : JNode) (a1 : IntConf)
    (hl1 : lookupA jri1 lag = some n1) (ha1 : n1.attrs = some a1)
    (hres : donationStep jri1 lag members = some jri2) :
    ∃ n2 a2, lookupA jri2 lag = some n2 ∧ n2.attrs = some a2 ∧ n2.mixed = n1.mixed
      ∧ (a1.ld.linkType ≠ "" → a2 = a1)
      ∧ (a1.ld.linkType = "" →
          (∃ m ∈ members, ∃ nm am, lookupA jri1 m = some nm ∧ nm.attrs = some am
              ∧ am.ld.linkType ≠ "") →
          a2.ld.linkType ≠ ""
          ∧ ∃ m ∈ members, ∃ nm am, lookupA jri1 m = some nm ∧ nm.attrs = some am
              ∧ am.ld.linkType = a2.ld.linkType) := by
  by_cases hlt : a1.ld.linkType = ""
  · simp only [donationStep, hl1, ha1, if_pos hlt] at hres
    cases hf : firstMemberLinkType jri1 members with
    | none =>
      rw [hf] at hres
      exact Option.noConfusion hres
    | some r =>
      cases r with
      | none =>
        rw [hf] at hres
        injection hres with hres
        subst hres
        refine ⟨n1, a1, hl1, ha1, rfl, fun hc => rfl, fun _ hEx => ?_⟩
        obtain ⟨m, hm, nm, am, h1, h2, h3⟩ := hEx
        exact absurd (fmlt_none_spec jri1 members hf m hm nm h1 am h2) h3
      | some t =>
        rw [hf] at hres
        injection hres with hres
        subst hres
        obtain ⟨ht, m, hm, nm, am, h1, h2, h3⟩ := fmlt_some_spec jri1 members t hf
        refine ⟨{ n1 with attrs := some { a1 with ld := { a1.ld with linkType := t } } },
                { a1 with ld := { a1.ld with linkType := t } },
                lookupA_setA_self _ _ _, rfl, rfl, fun hc => absurd hlt hc, fun _ _ => ?_⟩
        exact ⟨ht, m, hm, nm, am, h1, h2, h3⟩
  · simp only [donationStep, hl1, ha1, if_neg hlt] at hres
    injection hres with hres
    subst hres
    exact ⟨n1, a1, hl1, ha1, rfl, fun _ => rfl, fun hc => absurd hc hlt⟩

/-- Claim C5: for a LAG with at least one member interface in the built tree,
one pass of the post-processing loop (lines 676-684) flags the aggregate
`mixed = true` exactly when the members' physical-speed name stems (the
segment before the first "-") are not all identical, and an aggregate whose
own link class is empty receives the link class of a member that has one. -/
theorem claim_C5 (jri jri2 : List (String × JNode)) (lag : String) (members : List String)
    (n : JNode) (a : IntConf)
    (hmem : members ≠ []) (hnm : lag ∉ members)
    (hl : lookupA jri lag = some n) (ha : n.attrs = some a) (hmx : n.mixed = false)
    (hres : processLag jri lag members = some jri2) :
    ∃ n2 a2, lookupA jri2 lag = some n2 ∧ n2.attrs = some a2
      ∧ (n2.mixed = true ↔ ¬ ∀ x ∈ members, ∀ y ∈ members, speedStem x = speedStem y)
      ∧ (a.ld.linkType ≠ "" → a2.ld.linkType = a.ld.linkType)
      ∧ (a.ld.linkType = "" →
          (∃ m ∈ members, ∃ nm am, lookupA jri m = some nm ∧ nm.attrs = some am
              ∧ am.ld.linkType ≠ "") →
          a2.ld.linkType ≠ ""
          ∧ ∃ m ∈ members, ∃ nm am, lookupA jri m = some nm ∧ nm.attrs = some am
              ∧ am.ld.linkType = a2.ld.linkType) := by
  have hmemEq : ∀ m ∈ members, ∀ (j : List (String × JNode)) (v : JNode),
      lookupA (setA j lag v) m = lookupA j m := by
    intro m hm j v
    exact lookupA_setA_ne j lag m v (fun he => hnm (he ▸ hm))
  by_cases hmc : (dedupAcc [] (members.map speedStem)).length > 1
  · rw [processLag_eq_mixed jri lag members n hmc hl] at hres
    obtain ⟨n2, a2, h1, h2, h3, h4, h5⟩ :=
      donationStep_spec _ jri2 lag members { n with mixed := true } a
        (lookupA_setA_self _ _ _) ha hres
    have hnotall : ¬ ∀ x ∈ members, ∀ y ∈ members, speedStem x = speedStem y := by
      intro hall
      exact absurd ((dedup_le_one_iff _).mpr ((pairs_map_speedStem members).mpr hall))
        (by omega)
    refine ⟨n2, a2, h1, h2, iff_of_true h3 hnotall, ?_, ?_⟩
    · intro hlt
      rw [h4 hlt]
    · intro hlt hEx
      obtain ⟨m, hm, nm, am, e1, e2, e3⟩ := hEx
      obtain ⟨hne, m2, hm2, nm2, am2, f1, f2, f3⟩ :=
        h5 hlt ⟨m, hm, nm, am, (hmemEq m hm jri _).symm ▸ e1, e2, e3⟩
      exact ⟨hne, m2, hm2, nm2, am2, (hmemEq m2 hm2 jri _) ▸ f1, f2, f3⟩
  · rw [processLag_eq_nomix jri lag members hmc] at hres
    obtain ⟨n2, a2, h1, h2, h3, h4, h5⟩ :=
      donationStep_spec jri jri2 lag members n a hl ha hres
    have hall : ∀ x ∈ members, ∀ y ∈ members, speedStem x = speedStem y := by
      exact (pairs_map_speedStem members).mp ((dedup_le_one_iff _).mp (by omega))
    refine ⟨n2, a2, h1, h2, iff_of_false (by rw [h3, hmx]; simp) (not_not_intro hall), ?_, h5⟩
    intro hlt
    rw [h4 hlt]

theorem claim_C5_witness :
    ∃ jri2, processLag c5Jri "ae1" c5Members = some jri2
      ∧ ∃ n2 a2, lookupA jri2 "ae1" = some n2 ∧ n2.attrs = some a2
        ∧ (n2.mixed = true ↔ ¬ ∀ x ∈ c5Members, ∀ y ∈ c5Members, speedStem x = speedStem y)
        ∧ a2.ld.linkType ≠ "" := by
  refine ⟨_, rfl, ?_⟩
  obtain ⟨n2, a2, h1, h2, h3, h4, h5⟩ :=
    claim_C5 c5Jri _ "ae1" c5Members (mkNode (mkConf "")) (mkConf "")
      (by decide) (by decide) (by decide) rfl rfl rfl
  have hdon := h5 rfl
    ⟨"xe-0/0/1", by decide, mkNode (mkConf "Core"), mkConf "Core", by decide, rfl, by decide⟩
  exact ⟨n2, a2, h1, h2, h3, hdon.1⟩

/-- Claim C6: for a parent interface record P and a sub-interface record P.u,
the main loop of `_get_junos_interfaces` (lines 655-671) produces the same
final tree node for P whichever record is processed first: sub-first
synthesizes a placeholder `{'sub': ..., 'enabled': True}` and the later real
parent attributes merge into it, giving a node structurally identical to the
parent-first order. -/
theorem claim_C6 (snap : Snapshot) (rp rs : NbInterface) (P u : String)
    (cp cs : IntConf)
    (hpn : rp.name = P) (hPdot : strContains P '.' = false)
    (hsdot : strContains rs.name '.' = true)
    (hsplit : splitOnce rs.name = (P, u))
    (hplag : rp.lag = none) (hslag : rs.lag = none)
    (hpig1 : rp.name ≠ "fxp0-re0") (hpig2 : rp.name ≠ "fxp0-re1")
    (hpvcp : startsW rp.name "vcp" = false)
    (hsig1 : rs.name ≠ "fxp0-re0") (hsig2 : rs.name ≠ "fxp0-re1")
    (hsvcp : startsW rs.name "vcp" = false)
    (hcp : buildPhys snap rp = some cp) (hcs : buildPhys snap rs = some cs) :
    ∃ st1 st2,
      [rp, rs].foldlM (processRecord snap) ([], []) = some st1
      ∧ [rs, rp].foldlM (processRecord snap) ([], []) = some st2
      ∧ lookupA st1.1 P = some { enabled := cp.ld.enabled, attrs := some cp,
                                 sub := [(u, cs)], mixed := false }
      ∧ lookupA st2.1 P = lookupA st1.1 P := by
  have hP1 : P ≠ "fxp0-re0" := hpn ▸ hpig1
  have hP2 : P ≠ "fxp0-re1" := hpn ▸ hpig2
  have hPv : startsW P "vcp" = false := hpn ▸ hpvcp
  have e1 : processRecord snap ([], []) rp =
      some ([(P, { enabled := cp.ld.enabled, attrs := some cp, sub := [], mixed := false })],
            []) := by
    simp [processRecord, hpig1, hpig2, hpvcp, hP1, hP2, hPv, hplag, hcp, insertRecord, hpn,
          hPdot, lookupA]
  have e2 : processRecord snap
        ([(P, { enabled := cp.ld.enabled, attrs := some cp, sub := [], mixed := false })], [])
        rs =
      some ([(P, { enabled := cp.ld.enabled, attrs := some cp, sub := [(u, cs)],
                   mixed := false })], []) := by
    simp [processRecord, hsig1, hsig2, hsvcp, hslag, hcs, insertRecord, hsdot, hsplit,
          lookupA, setA]
  have e3 : processRecord snap ([], []) rs =
      some ([(P, { enabled := true, attrs := none, sub := [(u, cs)], mixed := false })],
            []) := by
    simp [processRecord, hsig1, hsig2, hsvcp, hslag, hcs, insertRecord, hsdot, hsplit,
          lookupA]
  have e4 : processRecord snap
        ([(P, { enabled := true, attrs := none, sub := [(u, cs)], mixed := false })], []) rp =
      some ([(P, { enabled := cp.ld.enabled, attrs := some cp, sub := [(u, cs)],
                   mixed := false })], []) := by
    simp [processRecord, hpig1, hpig2, hpvcp, hP1, hP2, hPv, hplag, hcp, insertRecord, hpn,
          hPdot, lookupA, setA]
  refine ⟨([(P, { enabled := cp.ld.enabled, attrs := some cp, sub := [(u, cs)],
                  mixed := false })], []),
          ([(P, { enabled := cp.ld.enabled, attrs := some cp, sub := [(u, cs)],
                  mixed := false })], []),
          ?_, ?_, ?_, rfl⟩
  · simp [List.foldlM, e1, e2]
  · simp [List.foldlM, e3, e4]
  · simp [lookupA]

theorem claim_C6_witness :
    ∃ cp cs st1 st2,
      buildPhys c6Snap c6Parent = some cp ∧ buildPhys c6Snap c6Sub = some cs
      ∧ [c6Parent, c6Sub].foldlM (processRecord c6Snap) ([], []) = some st1
      ∧ [c6Sub, c6Parent].foldlM (processRecord c6Snap) ([], []) = some st2
      ∧ lookupA st1.1 "xe-0/0/5" = some { enabled := cp.ld.enabled, attrs := some cp,
                                          sub := [("100", cs)], mixed := false }
      ∧ lookupA st2.1 "xe-0/0/5" = lookupA st1.1 "xe-0/0/5" := by
  obtain ⟨cp, hcp⟩ := Option.isSome_iff_exists.mp
    (show (buildPhys c6Snap c6Parent).isSome by decide)
  obtain ⟨cs, hcs⟩ := Option.isSome_iff_exists.mp
    (show (buildPhys c6Snap c6Sub).isSome by decide)
  obtain ⟨st1, st2, h1, h2, h3, h4⟩ :=
    claim_C6 c6Snap c6Parent c6Sub "xe-0/0/5" "100" cp cs rfl (by decide) (by decide)
      (by decide) rfl rfl (by decide) (by decide) (by decide) (by decide) (by decide)
      (by decide) hcp hcs
  exact ⟨cp, cs, st1, st2, hcp, hcs, h1, h2, h3, h4⟩

/-- Claim C7, counterexample: the code derives the hostname stem by deleting
runs of exactly four digits (`subn` with a four-digit pattern, line 131), not
by "stripping a trailing numeric suffix": the active, bgp-flagged server
"dns123" has trailing numeric suffix "123" and remaining prefix "dns", which
is in the lookup table with group "anycast", yet `normalize_bgp_neighbor`
returns the empty result because the name contains no four-digit run. -/
theorem claim_C7_cex :
    normalize_bgp_neighbor c7Dns = none
    ∧ claimServerGroup "dns123" = some "anycast" := by decide

/-- Claim C7 (amended): the peer group is derived by deleting every run of
exactly four consecutive digits from the hostname and looking the remaining
stem up in the fixed table; a name with no four-digit run, or whose stem has
no table entry, yields an empty result with a logged defect (the function is
total, it never raises); for every accepted peer the primary IPv4 address is
included whenever present, and the IPv6 address unless the peer group is
declared IPv4-only. -/
theorem claim_C7 (s : NbServer) :
    ((serverStem s.name).2 = 0 → normalize_bgp_neighbor s = none)
    ∧ (∀ (stem : String) (cnt : Nat), serverStem s.name = (stem, cnt) → cnt ≠ 0 →
        lookupA HOSTNAMES_TO_GROUPS stem = none → normalize_bgp_neighbor s = none)
    ∧ (∀ (stem : String) (cnt : Nat) (g : String) (v4only : Bool),
        s.statusVal = "active" → s.cfBgp = true →
        serverStem s.name = (stem, cnt) → cnt ≠ 0 →
        lookupA HOSTNAMES_TO_GROUPS stem = some (g, v4only) →
        normalize_bgp_neighbor s = some { group := g
                                          name := s.name
                                          ip4 := s.primaryIp4.map ipOf
                                          ip6 := if v4only then none
                                                 else s.primaryIp6.map ipOf })
    ∧ normalize_bgp_neighbor c7Server = none := by
  refine ⟨?_, ?_, ?_, by decide⟩
  · intro h0
    by_cases hst : s.statusVal = "active"
    · by_cases hbgp : s.cfBgp = true
      · cases hs : serverStem s.name with
        | mk stem cnt =>
          rw [hs] at h0
          simp at h0
          simp [normalize_bgp_neighbor, hst, hbgp, hs, h0]
      · simp [normalize_bgp_neighbor, hbgp]
    · simp [normalize_bgp_neighbor, hst]
  · intro stem cnt hs hcnt hlu
    by_cases hst : s.statusVal = "active"
    · by_cases hbgp : s.cfBgp = true
      · simp [normalize_bgp_neighbor, hst, hbgp, hs, hcnt, hlu]
      · simp [normalize_bgp_neighbor, hbgp]
    · simp [normalize_bgp_neighbor, hst]
  · intro stem cnt g v4only hst hbgp hs hcnt hlu
    simp [normalize_bgp_neighbor, hst, hbgp, hs, hcnt, hlu]

theorem claim_C7_witness :
    normalize_bgp_neighbor c7Dns = none
    ∧ normalize_bgp_neighbor c7Lvs = some { group := "pybal"
                                            name := "lvs1001"
                                            ip4 := some "10.2.1.1"
                                            ip6 := none } := by
  constructor
  · exact (claim_C7 c7Dns).1 (by decide)
  · have h := (claim_C7 c7Lvs).2.2.1 "lvs" 1 "pybal" true rfl rfl (by decide) (by decide)
      (by decide)
    exact h.trans (by decide)

theorem pbsGo_ne_none (l : List NbInterface) (acc : List (Nat × Nat))
    (hwf : ∀ k ∈ l, pbsSkip k = false →
      ∃ p, pbsPort k = some p ∧ (48 ≤ p ∨ ∃ sp, pbsSpeed k = some sp)) :
    pbsGo l acc ≠ none := by
  induction l generalizing acc with
  | nil => simp [pbsGo]
  | cons i rest ih =>
    have hwf2 : ∀ k ∈ rest, pbsSkip k = false →
        ∃ p, pbsPort k = some p ∧ (48 ≤ p ∨ ∃ sp, pbsSpeed k = some sp) :=
      fun k hk => hwf k (List.mem_cons_of_mem _ hk)
    by_cases hsk : pbsSkip i = true
    · simp only [pbsGo, hsk, ite_true]
      exact ih acc hwf2
    · have hskf : pbsSkip i = false := by simpa using hsk
      obtain ⟨p, hp, hrest⟩ := hwf i (List.mem_cons_self _ _) hskf
      rcases hrest with h48 | ⟨sp, hsp⟩
      · simp only [pbsGo, hskf, Bool.false_eq_true, ite_false, hp, ge_iff_le, h48, ite_true]
        exact ih acc hwf2
      · by_cases h48 : p ≥ 48
        · simp only [pbsGo, hskf, Bool.false_eq_true, ite_false, hp, ge_iff_le,
                     ge_iff_le.mp h48, ite_true]
          exact ih acc hwf2
        · have hle : ¬ 48 ≤ p := fun hc => h48 hc
          simp only [pbsGo, hskf, Bool.false_eq_true, ite_false, hp, ge_iff_le, hle, hsp]
          cases hl : lookupA acc (p - p % 4) with
          | none =>
            simp only [hl]
            exact ih _ hwf2
          | some s =>
            simp only [hl]
            by_cases hse : s = sp
            · simp only [hse, ite_true]
              exact ih acc hwf2
            · simp only [hse, ite_false]
              simp

theorem pbsGo_persist (l : List NbInterface) (acc m : List (Nat × Nat)) (b s : Nat)
    (h : pbsGo l acc = some (some m)) (hb : lookupA acc b = some s) :
    lookupA m b = some s := by
  induction l generalizing acc with
  | nil =>
    simp only [pbsGo] at h
    injection h with h
    injection h with h
    subst h
    exact hb
  | cons i rest ih =>
    by_cases hsk : pbsSkip i = true
    · simp only [pbsGo, hsk, ite_true] at h
      exact ih acc h hb
    · have hskf : pbsSkip i = false := by simpa using hsk
      cases hp : pbsPort i with
      | none =>
        simp only [pbsGo, hskf, Bool.false_eq_true, ite_false, hp] at h
        exact Option.noConfusion h
      | some p =>
        by_cases h48 : p ≥ 48
        · simp only [pbsGo, hskf, Bool.false_eq_true, ite_false, hp, ge_iff_le,
                     ge_iff_le.mp h48, ite_true] at h
          exact ih acc h hb
        · have hle : ¬ 48 ≤ p := fun hc => h48 hc
          cases hsp : pbsSpeed i with
          | none =>
            simp only [pbsGo, hskf, Bool.false_eq_true, ite_false, hp, ge_iff_le, hle,
                       hsp] at h
            exact Option.noConfusion h
          | some sp =>
            simp only [pbsGo, hskf, Bool.false_eq_true, ite_false, hp, ge_iff_le, hle,
                       hsp] at h
            cases hl : lookupA acc (p - p % 4) with
            | none =>
              simp only [hl] at h
              exact ih _ h (lookupA_append_of_some _ _ _ _ hb)
            | some s0 =>
              simp only [hl] at h
              by_cases hse : s0 = sp
              · simp only [hse, ite_true] at h
                exact ih acc h hb
              · simp only [hse, ite_false] at h
                injection h with h
                exact Option.noConfusion h

theorem pbsGo_mem (l : List NbInterface) (acc m : List (Nat × Nat))
    (h : pbsGo l acc = some (some m)) :
    ∀ i ∈ l, pbsSkip i = false → ∀ p, pbsPort i = some p → p < 48 →
      ∀ sp, pbsSpeed i = some sp → lookupA m (p - p % 4) = some sp := by
  induction l generalizing acc with
  | nil =>
    intro i hi
    simp at hi
  | cons i0 rest ih =>
    intro i hi hsk p hp h48 sp hsp
    rcases List.mem_cons.mp hi with he | he
    · subst he
      have hle : ¬ 48 ≤ p := Nat.not_le.mpr h48
      simp only [pbsGo, hsk, Bool.false_eq_true, ite_false, hp, ge_iff_le, hle, hsp] at h
      cases hl : lookupA acc (p - p % 4) with
      | none =>
        simp only [hl] at h
        refine pbsGo_persist rest _ m _ _ h ?_
        rw [lookupA_append_of_none _ _ _ hl]
        simp [lookupA]
      | some s0 =>
        simp only [hl] at h
        by_cases hse : s0 = sp
        · simp only [hse, ite_true] at h
          subst hse
          exact pbsGo_persist rest acc m _ _ h hl
        · simp only [hse, ite_false] at h
          injection h with h
          exact Option.noConfusion h
    · by_cases hsk0 : pbsSkip i0 = true
      · simp only [pbsGo, hsk0, ite_true] at h
        exact ih acc h i he hsk p hp h48 sp hsp
      · have hskf : pbsSkip i0 = false := by simpa using hsk0
        cases hp0 : pbsPort i0 with
        | none =>
          simp only [pbsGo, hskf, Bool.false_eq_true, ite_false, hp0] at h
          exact Option.noConfusion h
        | some p0 =>
          by_cases h480 : p0 ≥ 48
          · simp only [pbsGo, hskf, Bool.false_eq_true, ite_false, hp0, ge_iff_le,
                       ge_iff_le.mp h480, ite_true] at h
            exact ih acc h i he hsk p hp h48 sp hsp
          · have hle0 : ¬ 48 ≤ p0 := fun hc => h480 hc
            cases hsp0 : pbsSpeed i0 with
            | none =>
              simp only [pbsGo, hskf, Bool.false_eq_true, ite_false, hp0, ge_iff_le, hle0,
                         hsp0] at h
              exact Option.noConfusion h
            | some sp0 =>
              simp only [pbsGo, hskf, Bool.false_eq_true, ite_false, hp0, ge_iff_le, hle0,
                         hsp0] at h
              cases hl : lookupA acc (p0 - p0 % 4) with
              | none =>
                simp only [hl] at h
                exact ih _ h i he hsk p hp h48 sp hsp
              | some s0 =>
                simp only [hl] at h
                by_cases hse : s0 = sp0
                · simp only [hse, ite_true] at h
                  exact ih acc h i he hsk p hp h48 sp hsp
                · simp only [hse, ite_false] at h
                  injection h with h
                  exact Option.noConfusion h

/-- Claim C8: `_get_port_block_speeds` returns the explicit not-applicable
value None (distinct from an empty dict) whenever the device model is not a
QFX5120-48Y, and whenever two physical ports of the same 4-port block derive
conflicting speeds the whole view is None, never a partial mapping. -/
theorem claim_C8 (typeMeta : String) (ints : List NbInterface) :
    (startsW typeMeta "qfx5120-48y" = false →
      get_port_block_speeds typeMeta ints = some none)
    ∧ (∀ i ∈ ints, ∀ j ∈ ints,
        (∀ k ∈ ints, pbsSkip k = false →
          ∃ p, pbsPort k = some p ∧ (48 ≤ p ∨ ∃ sp, pbsSpeed k = some sp)) →
        pbsSkip i = false → pbsSkip j = false →
        ∀ (pi pj si sj : Nat), pbsPort i = some pi → pi < 48 → pbsSpeed i = some si →
        pbsPort j = some pj → pj < 48 → pbsSpeed j = some sj →
        pi - pi % 4 = pj - pj % 4 → si ≠ sj →
        get_port_block_speeds typeMeta ints = some none) := by
  constructor
  · intro h
    simp [get_port_block_speeds, h]
  · intro i hi j hj hwf hski hskj pi pj si sj hpi h48i hsi hpj h48j hsj hblk hne
    by_cases hq : startsW typeMeta "qfx5120-48y" = false
    · simp [get_port_block_speeds, hq]
    · have hq2 : get_port_block_speeds typeMeta ints = pbsGo ints [] := by
        simp [get_port_block_speeds, hq]
      rw [hq2]
      cases hgo : pbsGo ints [] with
      | none => exact absurd hgo (pbsGo_ne_none ints [] hwf)
      | some r =>
        cases r with
        | none => rfl
        | some m =>
          have h1 := pbsGo_mem ints [] m hgo i hi hski pi hpi h48i si hsi
          have h2 := pbsGo_mem ints [] m hgo j hj hskj pj hpj h48j sj hsj
          rw [hblk] at h1
          rw [h1] at h2
          injection h2 with h2
          exact absurd h2 hne

theorem claim_C8_witness :
    get_port_block_speeds "ex4300-48t" [c8IntA] = some none
    ∧ get_port_block_speeds "qfx5120-48y-afi" [c8IntA, c8IntB] = some none := by
  constructor
  · exact (claim_C8 "ex4300-48t" [c8IntA]).1 (by decide)
  · refine (claim_C8 "qfx5120-48y-afi" [c8IntA, c8IntB]).2 c8IntA (List.mem_cons_self _ _)
      c8IntB (List.mem_cons_of_mem _ (List.mem_cons_self _ _)) ?_ (by decide) (by decide)
      0 2 10 25 (by decide) (by decide) (by decide) (by decide) (by decide) (by decide)
      (by decide) (by decide)
    intro k hk hsk
    rcases List.mem_cons.mp hk with he | he
    · subst he
      exact ⟨0, by decide, Or.inr ⟨10, by decide⟩⟩
    · rcases List.mem_cons.mp he with he2 | he2
      · subst he2
        exact ⟨2, by decide, Or.inr ⟨25, by decide⟩⟩
      · simp at he2

theorem qosFold_untouched (role dtype : String) (l : List (String × JNode))
    (acc q : List (String × QosEntry))
    (h : l.foldlM (qosStep role dtype) acc = some q) (nm : String)
    (hn : ∀ p ∈ l, p.1 ≠ nm) : lookupA q nm = lookupA acc nm := by
  induction l generalizing acc with
  | nil =>
    simp only [List.foldlM] at h
    injection h with h
    subst h
    rfl
  | cons p rest ih =>
    simp only [List.foldlM] at h
    by_cases hsk : qosSkip p.1 p.2 = true
    · simp only [qosStep, hsk, ite_true, Option.some_bind] at h
      exact ih acc h (fun p2 hp2 => hn p2 (List.mem_cons_of_mem _ hp2))
    · have hskf : qosSkip p.1 p.2 = false := by simpa using hsk
      cases he : qosEntryFor role dtype p.1 p.2 with
      | none =>
        simp only [qosStep, hskf, Bool.false_eq_true, ite_false, he, Option.none_bind] at h
        exact Option.noConfusion h
      | some e =>
        simp only [qosStep, hskf, Bool.false_eq_true, ite_false, he, Option.some_bind] at h
        rw [ih _ h (fun p2 hp2 => hn p2 (List.mem_cons_of_mem _ hp2))]
        exact lookupA_setA_ne acc p.1 nm e (fun hc => hn p (List.mem_cons_self _ _) hc.symm)

theorem qosFold_skipped (role dtype : String) (l : List (String × JNode))
    (acc q : List (String × QosEntry))
    (h : l.foldlM (qosStep role dtype) acc = some q) (nm : String)
    (hsk : ∀ p ∈ l, p.1 = nm → qosSkip p.1 p.2 = true)
    (hacc : lookupA acc nm = none) : lookupA q nm = none := by
  induction l generalizing acc with
  | nil =>
    simp only [List.foldlM] at h
    injection h with h
    subst h
    exact hacc
  | cons p rest ih =>
    simp only [List.foldlM] at h
    by_cases hskp : qosSkip p.1 p.2 = true
    · simp only [qosStep, hskp, ite_true, Option.some_bind] at h
      exact ih acc h (fun p2 hp2 => hsk p2 (List.mem_cons_of_mem _ hp2)) hacc
    · have hskf : qosSkip p.1 p.2 = false := by simpa using hskp
      have hne : p.1 ≠ nm := fun he => hskp (hsk p (List.mem_cons_self _ _) he)
      cases he : qosEntryFor role dtype p.1 p.2 with
      | none =>
        simp only [qosStep, hskf, Bool.false_eq_true, ite_false, he, Option.none_bind] at h
        exact Option.noConfusion h
      | some e =>
        simp only [qosStep, hskf, Bool.false_eq_true, ite_false, he, Option.some_bind] at h
        refine ih _ h (fun p2 hp2 => hsk p2 (List.mem_cons_of_mem _ hp2)) ?_
        rw [lookupA_setA_ne acc p.1 nm e (fun hc => hne hc.symm)]
        · exact hacc

theorem qosFold_mem (role dtype : String) (l : List (String × JNode))
    (acc q : List (String × QosEntry))
    (h : l.foldlM (qosStep role dtype) acc = some q)
    (p : String × JNode) (hp : p ∈ l)
    (huniq : ∀ p2 ∈ l, p2.1 = p.1 → p2 = p) (hnd : l.Nodup)
    (hsk : qosSkip p.1 p.2 = false) :
    ∃ e, qosEntryFor role dtype p.1 p.2 = some e ∧ lookupA q p.1 = some e := by
  induction l generalizing acc with
  | nil => simp at hp
  | cons p0 rest ih =>
    simp only [List.foldlM] at h
    rcases List.mem_cons.mp hp with he | he
    · subst he
      cases hef : qosEntryFor role dtype p.1 p.2 with
      | none =>
        simp only [qosStep, hsk, Bool.false_eq_true, ite_false, hef, Option.none_bind] at h
        exact Option.noConfusion h
      | some e =>
        simp only [qosStep, hsk, Bool.false_eq_true, ite_false, hef, Option.some_bind] at h
        refine ⟨e, rfl, ?_⟩
        have hn : ∀ p2 ∈ rest, p2.1 ≠ p.1 := by
          intro p2 hp2 hname
          have := huniq p2 (List.mem_cons_of_mem _ hp2) hname
          subst this
          exact (List.nodup_cons.mp hnd).1 hp2
        rw [qosFold_untouched role dtype rest _ q h p.1 hn]
        exact lookupA_setA_self acc p.1 e
    · have ihargs : ∀ p2 ∈ rest, p2.1 = p.1 → p2 = p :=
        fun p2 hp2 => huniq p2 (List.mem_cons_of_mem _ hp2)
      have hnd2 := (List.nodup_cons.mp hnd).2
      by_cases hskp : qosSkip p0.1 p0.2 = true
      · simp only [qosStep, hskp, ite_true, Option.some_bind] at h
        exact ih acc h he ihargs hnd2
      · have hskf : qosSkip p0.1 p0.2 = false := by simpa using hskp
        cases hef : qosEntryFor role dtype p0.1 p0.2 with
        | none =>
          simp only [qosStep, hskf, Bool.false_eq_true, ite_false, hef, Option.none_bind] at h
          exact Option.noConfusion h
        | some e0 =>
          simp only [qosStep, hskf, Bool.false_eq_true, ite_false, hef, Option.some_bind] at h
          exact ih _ h he ihargs hnd2

theorem qosEntryFor_shape (role dtype name : String) (n : JNode) (e : QosEntry)
    (a : IntConf) (s : Nat)
    (ha : n.attrs = some a) (hs : a.ld.upstreamSpeed = some s) (hs0 : s ≠ 0)
    (he : qosEntryFor role dtype name n = some e) :
    e.shape_rate = some (s * 98 / 100) := by
  simp only [qosEntryFor, ha, hs, hs0, ne_eq, not_false_eq_true, ite_true] at he
  split at he
  · split at he
    · injection he with he
      subst he
      rfl
    · split at he
      · injection he with he
        subst he
        rfl
      · injection he with he
        subst he
        rfl
  · split at he
    · split at he
      · injection he with he
        subst he
        rfl
      · split at he
        · split at he
          · exact Option.noConfusion he
          · injection he with he
            subst he
            rfl
        · injection he with he
          subst he
          rfl
    · injection he with he
      subst he
      rfl

/-- Claim C9: in the QoS view, every interface whose name starts with one of
the excluded prefixes (irb, lo, fxp, em, vme), every LAG-member interface and
every disabled interface receives no QoS entry, and every remaining interface
whose resolved link carries a non-zero sub-rated upstream speed receives a
shaping rate of 98 percent of that speed, truncated to an integer (the
python `int(speed * 0.98)` equals `speed * 98 / 100` over the integer range
Netbox can store). -/
theorem claim_C9 (role dtype : String) (jri : List (String × JNode))
    (q : List (String × QosEntry))
    (hq : get_qos_interfaces role dtype jri = some q)
    (huniq : ∀ p ∈ jri, ∀ p2 ∈ jri, p2.1 = p.1 → p2 = p)
    (hnd : jri.Nodup) :
    (∀ p ∈ jri, qosSkip p.1 p.2 = true → lookupA q p.1 = none)
    ∧ (∀ p ∈ jri, qosSkip p.1 p.2 = false → ∀ (a : IntConf) (s : Nat),
        p.2.attrs = some a → a.ld.upstreamSpeed = some s → s ≠ 0 →
        ∃ e, lookupA q p.1 = some e ∧ e.shape_rate = some (s * 98 / 100)) := by
  constructor
  · intro p hp hskp
    refine qosFold_skipped role dtype jri [] q hq p.1 ?_ rfl
    intro p2 hp2 hname
    rw [huniq p hp p2 hp2 hname]
    exact hskp
  · intro p hp hskp a s ha hs hs0
    obtain ⟨e, hef, hlook⟩ :=
      qosFold_mem role dtype jri [] q hq p hp (huniq p hp) hnd hskp
    exact ⟨e, hlook, qosEntryFor_shape role dtype p.1 p.2 e a s ha hs hs0 hef⟩

theorem claim_C9_witness :
    ∃ q, get_qos_interfaces "cr" "mx480" c9Jri = some q
      ∧ lookupA q "irb.100" = none ∧ lookupA q "lo0" = none
      ∧ lookupA q "xe-2/2/2" = none
      ∧ ∃ e, lookupA q "xe-1/1/1" = some e ∧ e.shape_rate = some 980000 := by
  obtain ⟨q, hq⟩ := Option.isSome_iff_exists.mp
    (show (get_qos_interfaces "cr" "mx480" c9Jri).isSome by decide)
  have h := claim_C9 "cr" "mx480" c9Jri q hq (by decide) (by decide)
  refine ⟨q, hq, ?_, ?_, ?_, ?_⟩
  · exact h.1 ("irb.100", c9Node true "" none) (by decide) (by decide)
  · exact h.1 ("lo0", c9Node true "" none) (by decide) (by decide)
  · exact h.1 ("xe-2/2/2", c9Node false "" none) (by decide) (by decide)
  · obtain ⟨e, h1, h2⟩ := h.2 ("xe-1/1/1", c9Node true "Core" (some 1000000)) (by decide)
      (by decide) _ 1000000 rfl rfl (by decide)
    exact ⟨e, h1, h2.trans (by decide)⟩

theorem mtu_go_exact (name : String) (m : Nat) (l : List NbInterface) (acc : Option Nat)
    (hhit : ∃ i ∈ l, i.name = name)
    (hall : ∀ j ∈ l, j.name = name → j.enabled = true ∧ j.mtu = some m)
    (hm0 : m ≠ 0) :
    interface_mtu_go name acc l = some m := by
  induction l generalizing acc with
  | nil =>
    obtain ⟨i, hi, _⟩ := hhit
    simp at hi
  | cons j rest ih =>
    by_cases hjn : j.name = name
    · obtain ⟨hje, hjm⟩ := hall j (List.mem_cons_self _ _) hjn
      have hgd : j.mtu.getD 0 ≠ 0 := by
        rw [hjm]
        simpa using hm0
      rw [interface_mtu_go, if_pos ⟨hjn, hje, hgd⟩]
      exact hjm
    · obtain ⟨i, hi, hin⟩ := hhit
      rcases List.mem_cons.mp hi with he | he
      · exact absurd (he ▸ hin) hjn
      · rw [interface_mtu_go, if_neg (fun hc => hjn hc.1)]
        exact ih _ ⟨i, he, hin⟩ (fun k hk => hall k (List.mem_cons_of_mem _ hk))

theorem mtu_go_no_hits (name : String) (l : List NbInterface) (acc : Option Nat)
    (hex : ∀ j ∈ l, j.name = name → ¬(j.enabled = true ∧ j.mtu.getD 0 ≠ 0))
    (hpar : ∀ j ∈ l, ¬(strContains name '.' = true ∧ stemOf name = j.name
        ∧ j.mtu.getD 0 ≠ 0 ∧ j.enabled = true)) :
    interface_mtu_go name acc l = acc := by
  induction l generalizing acc with
  | nil => rfl
  | cons j rest ih =>
    have h1 : ¬(j.name = name ∧ j.enabled = true ∧ j.mtu.getD 0 ≠ 0) := by
      intro hc
      exact hex j (List.mem_cons_self _ _) hc.1 ⟨hc.2.1, hc.2.2⟩
    rw [interface_mtu_go, if_neg h1,
        if_neg (hpar j (List.mem_cons_self _ _))]
    exact ih acc (fun k hk => hex k (List.mem_cons_of_mem _ hk))
      (fun k hk => hpar k (List.mem_cons_of_mem _ hk))

theorem mtu_go_parent (name : String) (m : Nat) (l : List NbInterface) (acc : Option Nat)
    (hex : ∀ j ∈ l, j.name = name → ¬(j.enabled = true ∧ j.mtu.getD 0 ≠ 0))
    (hagree : ∀ j ∈ l, strContains name '.' = true → stemOf name = j.name →
        j.mtu.getD 0 ≠ 0 → j.enabled = true → j.mtu = some m)
    (hstart : acc = some m ∨ ∃ p ∈ l, strContains name '.' = true ∧ stemOf name = p.name
        ∧ p.mtu.getD 0 ≠ 0 ∧ p.enabled = true) :
    interface_mtu_go name acc l = some m := by
  induction l generalizing acc with
  | nil =>
    rcases hstart with h | ⟨p, hp, _⟩
    · exact h ▸ rfl
    · simp at hp
  | cons j rest ih =>
    have h1 : ¬(j.name = name ∧ j.enabled = true ∧ j.mtu.getD 0 ≠ 0) := by
      intro hc
      exact hex j (List.mem_cons_self _ _) hc.1 ⟨hc.2.1, hc.2.2⟩
    rw [interface_mtu_go, if_neg h1]
    have hex2 : ∀ k ∈ rest, k.name = name → ¬(k.enabled = true ∧ k.mtu.getD 0 ≠ 0) :=
      fun k hk => hex k (List.mem_cons_of_mem _ hk)
    have hagree2 : ∀ k ∈ rest, strContains name '.' = true → stemOf name = k.name →
        k.mtu.getD 0 ≠ 0 → k.enabled = true → k.mtu = some m :=
      fun k hk => hagree k (List.mem_cons_of_mem _ hk)
    by_cases hpc : strContains name '.' = true ∧ stemOf name = j.name
        ∧ j.mtu.getD 0 ≠ 0 ∧ j.enabled = true
    · rw [if_pos hpc]
      refine ih _ hex2 hagree2 (Or.inl ?_)
      exact hagree j (List.mem_cons_self _ _) hpc.1 hpc.2.1 hpc.2.2.1 hpc.2.2.2
    · rw [if_neg hpc]
      rcases hstart with h | ⟨p, hp, hpcond⟩
      · exact ih acc hex2 hagree2 (Or.inl h)
      · rcases List.mem_cons.mp hp with he | he
        · exact absurd (he ▸ hpcond) hpc
        · exact ih acc hex2 hagree2 (Or.inr ⟨p, he, hpcond⟩)

/-- Claim C10: `interface_mtu(name)` returns the MTU of the enabled interface
whose name exactly equals `name` when one exists with a non-null MTU
(preferring the exact match over the parent regardless of list position, as
the exact match returns immediately while a parent hit only updates the
accumulator); otherwise the non-null MTU of the enabled parent interface
(the name before the first dot); otherwise none — a disabled interface's MTU
is never used. -/
theorem claim_C10 (ints : List NbInterface) (name : String) :
    (∀ i ∈ ints, ∀ m : Nat, i.name = name → i.enabled = true → i.mtu = some m → m ≠ 0 →
      (∀ j ∈ ints, j.name = name → j.enabled = true ∧ j.mtu = some m) →
      interface_mtu ints name = some m)
    ∧ ((∀ j ∈ ints, j.name = name → ¬(j.enabled = true ∧ j.mtu.getD 0 ≠ 0)) →
       ∀ p ∈ ints, ∀ m : Nat, strContains name '.' = true → stemOf name = p.name →
         p.enabled = true → p.mtu = some m → m ≠ 0 →
         (∀ j ∈ ints, strContains name '.' = true → stemOf name = j.name →
           j.mtu.getD 0 ≠ 0 → j.enabled = true → j.mtu = some m) →
         interface_mtu ints name = some m)
    ∧ ((∀ j ∈ ints, j.name = name → ¬(j.enabled = true ∧ j.mtu.getD 0 ≠ 0)) →
       (∀ j ∈ ints, ¬(strContains name '.' = true ∧ stemOf name = j.name
           ∧ j.mtu.getD 0 ≠ 0 ∧ j.enabled = true)) →
       interface_mtu ints name = none) := by
  refine ⟨?_, ?_, ?_⟩
  · intro i hi m hn he hm h0 hall
    exact mtu_go_exact name m ints none ⟨i, hi, hn⟩ hall h0
  · intro hex p hp m hdot hstem hpe hpm hm0 hagree
    refine mtu_go_parent name m ints none hex hagree (Or.inr ⟨p, hp, hdot, hstem, ?_, hpe⟩)
    rw [hpm]
    simpa using hm0
  · intro hex hpar
    exact mtu_go_no_hits name ints none hex hpar

theorem claim_C10_witness :
    interface_mtu [c10Parent, c10Sub] "ae1.100" = some 1500
    ∧ interface_mtu [c10Parent] "ae1.100" = some 9000
    ∧ interface_mtu [{ c10Parent with enabled := false }] "ae1.100" = none := by
  refine ⟨?_, ?_, ?_⟩
  · refine (claim_C10 [c10Parent, c10Sub] "ae1.100").1 c10Sub
      (List.mem_cons_of_mem _ (List.mem_cons_self _ _)) 1500 rfl rfl rfl (by decide) ?_
    intro j hj hjn
    rcases List.mem_cons.mp hj with rfl | hj2
    · exact absurd hjn (by decide)
    · rcases List.mem_cons.mp hj2 with rfl | hj3
      · exact ⟨rfl, rfl⟩
      · simp at hj3
  · refine (claim_C10 [c10Parent] "ae1.100").2.1 ?_ c10Parent (List.mem_cons_self _ _)
      9000 (by decide) (by decide) rfl rfl (by decide) ?_
    · intro j hj hjn
      rcases List.mem_cons.mp hj with rfl | hj2
      · exact absurd hjn (by decide)
      · simp at hj2
    · intro j hj _ _ _ _
      rcases List.mem_cons.mp hj with rfl | hj2
      · rfl
      · simp at hj2
  · refine (claim_C10 [{ c10Parent with enabled := false }] "ae1.100").2.2 ?_ ?_
    · intro j hj hjn
      rcases List.mem_cons.mp hj with rfl | hj2
      · exact absurd hjn (by decide)
      · simp at hj2
    · intro j hj
      rcases List.mem_cons.mp hj with rfl | hj2
      · intro hc
        exact absurd hc.2.2.2 (by decide)
      · simp at hj2
